import Mathlib

/-!
Verification of the CHIP-8 toolchain core (instruction codec, assembler,
disassembler) against its natural-language specification.

The C sources are modelled by a shallow embedding:

* machine integers (uint8/uint16/unsigned long) become Nat with explicit
  reductions modulo 2^8 / 2^16 / 2^64 wherever the C value can wrap;
* bit extraction through masks of contiguous bits is written arithmetically
  (x & 0xF00 followed by >> 8 becomes x / 256 % 16), and bitwise-or of
  fields with disjoint bits is written as +, which is the same number;
* C functions returning an error code become functions into an error sum;
* the in-place mutation of a struct becomes explicit state passing.
-/

set_option maxRecDepth 100000

namespace Chip8

/-! ## Instruction codec, from src/instruction.c

A decoded instruction.  The C `struct chip8_instruction` is an operation tag
plus fields vx/vy and a union of opcode/addr/byte/nibble of which only those
meaningful for the tag are ever assigned and read; we embed it as an
inductive carrying exactly the fields the decoder assigns for each tag. -/

inductive Instr where
  | INVALID (opcode : Nat)
  | SCD (nibble : Nat)
  | CLS
  | RET
  | SCR
  | SCL
  | EXIT
  | LOW
  | HIGH
  | JP (addr : Nat)
  | CALL (addr : Nat)
  | SE_BYTE (vx byte : Nat)
  | SNE_BYTE (vx byte : Nat)
  | SE_REG (vx vy : Nat)
  | LD_BYTE (vx byte : Nat)
  | ADD_BYTE (vx byte : Nat)
  | LD_REG (vx vy : Nat)
  | OR (vx vy : Nat)
  | AND (vx vy : Nat)
  | XOR (vx vy : Nat)
  | ADD_REG (vx vy : Nat)
  | SUB (vx vy : Nat)
  | SHR (vx vy : Nat)
  | SUBN (vx vy : Nat)
  | SHL (vx vy : Nat)
  | SNE_REG (vx vy : Nat)
  | LD_I (addr : Nat)
  | JP_V0 (addr : Nat)
  | RND (vx byte : Nat)
  | DRW (vx vy nibble : Nat)
  | SKP (vx : Nat)
  | SKNP (vx : Nat)
  | LD_REG_DT (vx : Nat)
  | LD_KEY (vx : Nat)
  | LD_DT_REG (vx : Nat)
  | LD_ST (vx : Nat)
  | ADD_I (vx : Nat)
  | LD_F (vx : Nat)
  | LD_HF (vx : Nat)
  | LD_B (vx : Nat)
  | LD_DEREF_I_REG (vx : Nat)
  | LD_REG_DEREF_I (vx : Nat)
  | LD_R_REG (vx : Nat)
  | LD_REG_R (vx : Nat)
  deriving DecidableEq, Repr

/-- Macro OPCODE2VX: (opcode & 0xF00) >> 8. -/
def opcode2vx (opcode : Nat) : Nat := opcode / 256 % 16

/-- Macro OPCODE2VY: (opcode & 0xF0) >> 4. -/
def opcode2vy (opcode : Nat) : Nat := opcode / 16 % 16

/-- Macro OPCODE2ADDR: opcode & 0xFFF. -/
def opcode2addr (opcode : Nat) : Nat := opcode % 4096

/-- Macro OPCODE2BYTE: opcode & 0xFF. -/
def opcode2byte (opcode : Nat) : Nat := opcode % 256

/-- Macro OPCODE2NIBBLE: opcode & 0xF. -/
def opcode2nibble (opcode : Nat) : Nat := opcode % 16

/-- Macro VX2OPCODE: (vx & 0xF) << 8. -/
def vx2opcode (vx : Nat) : Nat := vx % 16 * 256

/-- Macro VY2OPCODE: (vy & 0xF) << 4. -/
def vy2opcode (vy : Nat) : Nat := vy % 16 * 16

/-- Macro ADDR2OPCODE: addr & 0xFFF. -/
def addr2opcode (a : Nat) : Nat := a % 4096

/-- Macro BYTE2OPCODE: byte & 0xFF. -/
def byte2opcode (b : Nat) : Nat := b % 256

/-- Macro NIBBLE2OPCODE: nibble & 0xF. -/
def nibble2opcode (n : Nat) : Nat := n % 16

/-- Function chip8_instruction_from_opcode.  The C switches on the top nibble
(opcode & 0xF000) >> 12 and sub-dispatches on low bits; any pattern that
assigns no operation leaves the initial OP_INVALID, which retains the raw
opcode.  In the non-quirks 8xy6/8xyE branches the C assigns only vx and the
guard forces the y nibble to zero; we record the (zero) y nibble as the vy
argument of the SHR/SHL constructor, which the C leaves unassigned there. -/
def fromOpcode (opcode : Nat) (shiftQuirks : Bool) : Instr :=
  let hi := opcode / 4096 % 16
  if hi = 0x0 then
    if opcode / 16 % 16 = 0xC then .SCD (opcode2nibble opcode)
    else if opcode % 256 = 0xE0 then .CLS
    else if opcode % 256 = 0xEE then .RET
    else if opcode % 256 = 0xFB then .SCR
    else if opcode % 256 = 0xFC then .SCL
    else if opcode % 256 = 0xFD then .EXIT
    else if opcode % 256 = 0xFE then .LOW
    else if opcode % 256 = 0xFF then .HIGH
    else .INVALID opcode
  else if hi = 0x1 then .JP (opcode2addr opcode)
  else if hi = 0x2 then .CALL (opcode2addr opcode)
  else if hi = 0x3 then .SE_BYTE (opcode2vx opcode) (opcode2byte opcode)
  else if hi = 0x4 then .SNE_BYTE (opcode2vx opcode) (opcode2byte opcode)
  else if hi = 0x5 then
    if opcode % 16 = 0 then .SE_REG (opcode2vx opcode) (opcode2vy opcode)
    else .INVALID opcode
  else if hi = 0x6 then .LD_BYTE (opcode2vx opcode) (opcode2byte opcode)
  else if hi = 0x7 then .ADD_BYTE (opcode2vx opcode) (opcode2byte opcode)
  else if hi = 0x8 then
    let lo := opcode % 16
    if lo = 0x0 then .LD_REG (opcode2vx opcode) (opcode2vy opcode)
    else if lo = 0x1 then .OR (opcode2vx opcode) (opcode2vy opcode)
    else if lo = 0x2 then .AND (opcode2vx opcode) (opcode2vy opcode)
    else if lo = 0x3 then .XOR (opcode2vx opcode) (opcode2vy opcode)
    else if lo = 0x4 then .ADD_REG (opcode2vx opcode) (opcode2vy opcode)
    else if lo = 0x5 then .SUB (opcode2vx opcode) (opcode2vy opcode)
    else if lo = 0x6 then
      if shiftQuirks then .SHR (opcode2vx opcode) (opcode2vy opcode)
      else if opcode / 16 % 16 = 0 then .SHR (opcode2vx opcode) (opcode2vy opcode)
      else .INVALID opcode
    else if lo = 0x7 then .SUBN (opcode2vx opcode) (opcode2vy opcode)
    else if lo = 0xE then
      if shiftQuirks then .SHL (opcode2vx opcode) (opcode2vy opcode)
      else if opcode / 16 % 16 = 0 then .SHL (opcode2vx opcode) (opcode2vy opcode)
      else .INVALID opcode
    else .INVALID opcode
  else if hi = 0x9 then
    if opcode % 16 = 0 then .SNE_REG (opcode2vx opcode) (opcode2vy opcode)
    else .INVALID opcode
  else if hi = 0xA then .LD_I (opcode2addr opcode)
  else if hi = 0xB then .JP_V0 (opcode2addr opcode)
  else if hi = 0xC then .RND (opcode2vx opcode) (opcode2byte opcode)
  else if hi = 0xD then .DRW (opcode2vx opcode) (opcode2vy opcode) (opcode2nibble opcode)
  else if hi = 0xE then
    if opcode % 256 = 0x9E then .SKP (opcode2vx opcode)
    else if opcode % 256 = 0xA1 then .SKNP (opcode2vx opcode)
    else .INVALID opcode
  else
    if opcode % 256 = 0x07 then .LD_REG_DT (opcode2vx opcode)
    else if opcode % 256 = 0x0A then .LD_KEY (opcode2vx opcode)
    else if opcode % 256 = 0x15 then .LD_DT_REG (opcode2vx opcode)
    else if opcode % 256 = 0x18 then .LD_ST (opcode2vx opcode)
    else if opcode % 256 = 0x1E then .ADD_I (opcode2vx opcode)
    else if opcode % 256 = 0x29 then .LD_F (opcode2vx opcode)
    else if opcode % 256 = 0x30 then .LD_HF (opcode2vx opcode)
    else if opcode % 256 = 0x33 then .LD_B (opcode2vx opcode)
    else if opcode % 256 = 0x55 then .LD_DEREF_I_REG (opcode2vx opcode)
    else if opcode % 256 = 0x65 then .LD_REG_DEREF_I (opcode2vx opcode)
    else if opcode % 256 = 0x75 then .LD_R_REG (opcode2vx opcode)
    else if opcode % 256 = 0x85 then .LD_REG_R (opcode2vx opcode)
    else .INVALID opcode

/-- Function chip8_instruction_to_opcode (the two-argument, quirks-aware
version of src/instruction.c).  Bitwise or of fields with disjoint bits is
written as +. -/
def toOpcode (i : Instr) (shiftQuirks : Bool) : Nat :=
  match i with
  | .INVALID c => c
  | .SCD n => 0x00C0 + nibble2opcode n
  | .CLS => 0x00E0
  | .RET => 0x00EE
  | .SCR => 0x00FB
  | .SCL => 0x00FC
  | .EXIT => 0x00FD
  | .LOW => 0x00FE
  | .HIGH => 0x00FF
  | .JP a => 0x1000 + addr2opcode a
  | .CALL a => 0x2000 + addr2opcode a
  | .SE_BYTE vx b => 0x3000 + vx2opcode vx + byte2opcode b
  | .SNE_BYTE vx b => 0x4000 + vx2opcode vx + byte2opcode b
  | .SE_REG vx vy => 0x5000 + vx2opcode vx + vy2opcode vy
  | .LD_BYTE vx b => 0x6000 + vx2opcode vx + byte2opcode b
  | .ADD_BYTE vx b => 0x7000 + vx2opcode vx + byte2opcode b
  | .LD_REG vx vy => 0x8000 + vx2opcode vx + vy2opcode vy
  | .OR vx vy => 0x8001 + vx2opcode vx + vy2opcode vy
  | .AND vx vy => 0x8002 + vx2opcode vx + vy2opcode vy
  | .XOR vx vy => 0x8003 + vx2opcode vx + vy2opcode vy
  | .ADD_REG vx vy => 0x8004 + vx2opcode vx + vy2opcode vy
  | .SUB vx vy => 0x8005 + vx2opcode vx + vy2opcode vy
  | .SHR vx vy =>
      if shiftQuirks then 0x8006 + vx2opcode vx + vy2opcode vy
      else 0x8006 + vx2opcode vx
  | .SUBN vx vy => 0x8007 + vx2opcode vx + vy2opcode vy
  | .SHL vx vy =>
      if shiftQuirks then 0x800E + vx2opcode vx + vy2opcode vy
      else 0x800E + vx2opcode vx
  | .SNE_REG vx vy => 0x9000 + vx2opcode vx + vy2opcode vy
  | .LD_I a => 0xA000 + addr2opcode a
  | .JP_V0 a => 0xB000 + addr2opcode a
  | .RND vx b => 0xC000 + vx2opcode vx + byte2opcode b
  | .DRW vx vy n => 0xD000 + vx2opcode vx + vy2opcode vy + nibble2opcode n
  | .SKP vx => 0xE09E + vx2opcode vx
  | .SKNP vx => 0xE0A1 + vx2opcode vx
  | .LD_REG_DT vx => 0xF007 + vx2opcode vx
  | .LD_KEY vx => 0xF00A + vx2opcode vx
  | .LD_DT_REG vx => 0xF015 + vx2opcode vx
  | .LD_ST vx => 0xF018 + vx2opcode vx
  | .ADD_I vx => 0xF01E + vx2opcode vx
  | .LD_F vx => 0xF029 + vx2opcode vx
  | .LD_HF vx => 0xF030 + vx2opcode vx
  | .LD_B vx => 0xF033 + vx2opcode vx
  | .LD_DEREF_I_REG vx => 0xF055 + vx2opcode vx
  | .LD_REG_DEREF_I vx => 0xF065 + vx2opcode vx
  | .LD_R_REG vx => 0xF075 + vx2opcode vx
  | .LD_REG_R vx => 0xF085 + vx2opcode vx

/-- Operand validity, as the round-trip claim states it: register indices
below 16, 12-bit addresses, 8-bit bytes, 4-bit nibbles, and an Invalid
instruction must carry a 16-bit opcode that decodes to no variant. -/
def validOperands (shiftQuirks : Bool) : Instr → Bool
  | .INVALID c => decide (c < 65536) && (fromOpcode c shiftQuirks == .INVALID c)
  | .SCD n => decide (n < 16)
  | .CLS | .RET | .SCR | .SCL | .EXIT | .LOW | .HIGH => true
  | .JP a | .CALL a | .LD_I a | .JP_V0 a => decide (a < 4096)
  | .SE_BYTE vx b | .SNE_BYTE vx b | .LD_BYTE vx b | .ADD_BYTE vx b
  | .RND vx b => decide (vx < 16) && decide (b < 256)
  | .SE_REG vx vy | .LD_REG vx vy | .OR vx vy | .AND vx vy | .XOR vx vy
  | .ADD_REG vx vy | .SUB vx vy | .SHR vx vy | .SUBN vx vy | .SHL vx vy
  | .SNE_REG vx vy => decide (vx < 16) && decide (vy < 16)
  | .DRW vx vy n => decide (vx < 16) && decide (vy < 16) && decide (n < 16)
  | .SKP vx | .SKNP vx | .LD_REG_DT vx | .LD_KEY vx | .LD_DT_REG vx
  | .LD_ST vx | .ADD_I vx | .LD_F vx | .LD_HF vx | .LD_B vx
  | .LD_DEREF_I_REG vx | .LD_REG_DEREF_I vx | .LD_R_REG vx
  | .LD_REG_R vx => decide (vx < 16)

/-- Constraint the counterexample below forces on the claim: in non-quirks
mode the shift instructions carry no meaningful vy, so the round trip can
only preserve vy = 0 there. -/
def nonQuirkShiftOk : Instr → Bool
  | .SHR _ vy | .SHL _ vy => vy == 0
  | _ => true

/-! Case lemmas for fromOpcode: one per branch of the decoder dispatch. -/

theorem decode_hi0_scd (c : Nat) (q : Bool) (h : c / 4096 % 16 = 0)
    (hc : c / 16 % 16 = 12) : fromOpcode c q = .SCD (opcode2nibble c) := by
  simp only [fromOpcode]; rw [h, hc]; norm_num

theorem decode_hi1 (c : Nat) (q : Bool) (h : c / 4096 % 16 = 1) :
    fromOpcode c q = .JP (opcode2addr c) := by
  simp only [fromOpcode]; rw [h]; norm_num

theorem decode_hi2 (c : Nat) (q : Bool) (h : c / 4096 % 16 = 2) :
    fromOpcode c q = .CALL (opcode2addr c) := by
  simp only [fromOpcode]; rw [h]; norm_num

theorem decode_hi3 (c : Nat) (q : Bool) (h : c / 4096 % 16 = 3) :
    fromOpcode c q = .SE_BYTE (opcode2vx c) (opcode2byte c) := by
  simp only [fromOpcode]; rw [h]; norm_num

theorem decode_hi4 (c : Nat) (q : Bool) (h : c / 4096 % 16 = 4) :
    fromOpcode c q = .SNE_BYTE (opcode2vx c) (opcode2byte c) := by
  simp only [fromOpcode]; rw [h]; norm_num

theorem decode_hi5 (c : Nat) (q : Bool) (h : c / 4096 % 16 = 5) (hl : c % 16 = 0) :
    fromOpcode c q = .SE_REG (opcode2vx c) (opcode2vy c) := by
  simp only [fromOpcode]; rw [h, hl]; norm_num

theorem decode_hi6 (c : Nat) (q : Bool) (h : c / 4096 % 16 = 6) :
    fromOpcode c q = .LD_BYTE (opcode2vx c) (opcode2byte c) := by
  simp only [fromOpcode]; rw [h]; norm_num

theorem decode_hi7 (c : Nat) (q : Bool) (h : c / 4096 % 16 = 7) :
    fromOpcode c q = .ADD_BYTE (opcode2vx c) (opcode2byte c) := by
  simp only [fromOpcode]; rw [h]; norm_num

theorem decode_hi8_0 (c : Nat) (q : Bool) (h : c / 4096 % 16 = 8) (hl : c % 16 = 0) :
    fromOpcode c q = .LD_REG (opcode2vx c) (opcode2vy c) := by
  simp only [fromOpcode]; rw [h, hl]; norm_num

theorem decode_hi8_1 (c : Nat) (q : Bool) (h : c / 4096 % 16 = 8) (hl : c % 16 = 1) :
    fromOpcode c q = .OR (opcode2vx c) (opcode2vy c) := by
  simp only [fromOpcode]; rw [h, hl]; norm_num

theorem decode_hi8_2 (c : Nat) (q : Bool) (h : c / 4096 % 16 = 8) (hl : c % 16 = 2) :
    fromOpcode c q = .AND (opcode2vx c) (opcode2vy c) := by
  simp only [fromOpcode]; rw [h, hl]; norm_num

theorem decode_hi8_3 (c : Nat) (q : Bool) (h : c / 4096 % 16 = 8) (hl : c % 16 = 3) :
    fromOpcode c q = .XOR (opcode2vx c) (opcode2vy c) := by
  simp only [fromOpcode]; rw [h, hl]; norm_num

theorem decode_hi8_4 (c : Nat) (q : Bool) (h : c / 4096 % 16 = 8) (hl : c % 16 = 4) :
    fromOpcode c q = .ADD_REG (opcode2vx c) (opcode2vy c) := by
  simp only [fromOpcode]; rw [h, hl]; norm_num

theorem decode_hi8_5 (c : Nat) (q : Bool) (h : c / 4096 % 16 = 8) (hl : c % 16 = 5) :
    fromOpcode c q = .SUB (opcode2vx c) (opcode2vy c) := by
  simp only [fromOpcode]; rw [h, hl]; norm_num

theorem decode_hi8_6_q (c : Nat) (h : c / 4096 % 16 = 8) (hl : c % 16 = 6) :
    fromOpcode c true = .SHR (opcode2vx c) (opcode2vy c) := by
  simp only [fromOpcode]; rw [h, hl]; norm_num

theorem decode_hi8_6_z (c : Nat) (h : c / 4096 % 16 = 8) (hl : c % 16 = 6)
    (hy : c / 16 % 16 = 0) : fromOpcode c false = .SHR (opcode2vx c) (opcode2vy c) := by
  simp only [fromOpcode]; rw [h, hl, hy]; norm_num

theorem decode_hi8_6_nz (c : Nat) (h : c / 4096 % 16 = 8) (hl : c % 16 = 6)
    (hy : c / 16 % 16 ≠ 0) : fromOpcode c false = .INVALID c := by
  simp only [fromOpcode]; rw [h, hl]; simp [hy]

theorem decode_hi8_7 (c : Nat) (q : Bool) (h : c / 4096 % 16 = 8) (hl : c % 16 = 7) :
    fromOpcode c q = .SUBN (opcode2vx c) (opcode2vy c) := by
  simp only [fromOpcode]; rw [h, hl]; norm_num

theorem decode_hi8_e_q (c : Nat) (h : c / 4096 % 16 = 8) (hl : c % 16 = 14) :
    fromOpcode c true = .SHL (opcode2vx c) (opcode2vy c) := by
  simp only [fromOpcode]; rw [h, hl]; norm_num

theorem decode_hi8_e_z (c : Nat) (h : c / 4096 % 16 = 8) (hl : c % 16 = 14)
    (hy : c / 16 % 16 = 0) : fromOpcode c false = .SHL (opcode2vx c) (opcode2vy c) := by
  simp only [fromOpcode]; rw [h, hl, hy]; norm_num

theorem decode_hi8_e_nz (c : Nat) (h : c / 4096 % 16 = 8) (hl : c % 16 = 14)
    (hy : c / 16 % 16 ≠ 0) : fromOpcode c false = .INVALID c := by
  simp only [fromOpcode]; rw [h, hl]; simp [hy]

theorem decode_hi9 (c : Nat) (q : Bool) (h : c / 4096 % 16 = 9) (hl : c % 16 = 0) :
    fromOpcode c q = .SNE_REG (opcode2vx c) (opcode2vy c) := by
  simp only [fromOpcode]; rw [h, hl]; norm_num

theorem decode_hiA (c : Nat) (q : Bool) (h : c / 4096 % 16 = 10) :
    fromOpcode c q = .LD_I (opcode2addr c) := by
  simp only [fromOpcode]; rw [h]; norm_num

theorem decode_hiB (c : Nat) (q : Bool) (h : c / 4096 % 16 = 11) :
    fromOpcode c q = .JP_V0 (opcode2addr c) := by
  simp only [fromOpcode]; rw [h]; norm_num

theorem decode_hiC (c : Nat) (q : Bool) (h : c / 4096 % 16 = 12) :
    fromOpcode c q = .RND (opcode2vx c) (opcode2byte c) := by
  simp only [fromOpcode]; rw [h]; norm_num

theorem decode_hiD (c : Nat) (q : Bool) (h : c / 4096 % 16 = 13) :
    fromOpcode c q = .DRW (opcode2vx c) (opcode2vy c) (opcode2nibble c) := by
  simp only [fromOpcode]; rw [h]; norm_num

theorem decode_hiE_9E (c : Nat) (q : Bool) (h : c / 4096 % 16 = 14)
    (hl : c % 256 = 0x9E) : fromOpcode c q = .SKP (opcode2vx c) := by
  simp only [fromOpcode]; rw [h, hl]; norm_num

theorem decode_hiE_A1 (c : Nat) (q : Bool) (h : c / 4096 % 16 = 14)
    (hl : c % 256 = 0xA1) : fromOpcode c q = .SKNP (opcode2vx c) := by
  simp only [fromOpcode]; rw [h, hl]; norm_num

theorem decode_hiF_07 (c : Nat) (q : Bool) (h : c / 4096 % 16 = 15)
    (hl : c % 256 = 0x07) : fromOpcode c q = .LD_REG_DT (opcode2vx c) := by
  simp only [fromOpcode]; rw [h, hl]; norm_num

theorem decode_hiF_0A (c : Nat) (q : Bool) (h : c / 4096 % 16 = 15)
    (hl : c % 256 = 0x0A) : fromOpcode c q = .LD_KEY (opcode2vx c) := by
  simp only [fromOpcode]; rw [h, hl]; norm_num

theorem decode_hiF_15 (c : Nat) (q : Bool) (h : c / 4096 % 16 = 15)
    (hl : c % 256 = 0x15) : fromOpcode c q = .LD_DT_REG (opcode2vx c) := by
  simp only [fromOpcode]; rw [h, hl]; norm_num

theorem decode_hiF_18 (c : Nat) (q : Bool) (h : c / 4096 % 16 = 15)
    (hl : c % 256 = 0x18) : fromOpcode c q = .LD_ST (opcode2vx c) := by
  simp only [fromOpcode]; rw [h, hl]; norm_num

theorem decode_hiF_1E (c : Nat) (q : Bool) (h : c / 4096 % 16 = 15)
    (hl : c % 256 = 0x1E) : fromOpcode c q = .ADD_I (opcode2vx c) := by
  simp only [fromOpcode]; rw [h, hl]; norm_num

theorem decode_hiF_29 (c : Nat) (q : Bool) (h : c / 4096 % 16 = 15)
    (hl : c % 256 = 0x29) : fromOpcode c q = .LD_F (opcode2vx c) := by
  simp only [fromOpcode]; rw [h, hl]; norm_num

theorem decode_hiF_30 (c : Nat) (q : Bool) (h : c / 4096 % 16 = 15)
    (hl : c % 256 = 0x30) : fromOpcode c q = .LD_HF (opcode2vx c) := by
  simp only [fromOpcode]; rw [h, hl]; norm_num

theorem decode_hiF_33 (c : Nat) (q : Bool) (h : c / 4096 % 16 = 15)
    (hl : c % 256 = 0x33) : fromOpcode c q = .LD_B (opcode2vx c) := by
  simp only [fromOpcode]; rw [h, hl]; norm_num

theorem decode_hiF_55 (c : Nat) (q : Bool) (h : c / 4096 % 16 = 15)
    (hl : c % 256 = 0x55) : fromOpcode c q = .LD_DEREF_I_REG (opcode2vx c) := by
  simp only [fromOpcode]; rw [h, hl]; norm_num

theorem decode_hiF_65 (c : Nat) (q : Bool) (h : c / 4096 % 16 = 15)
    (hl : c % 256 = 0x65) : fromOpcode c q = .LD_REG_DEREF_I (opcode2vx c) := by
  simp only [fromOpcode]; rw [h, hl]; norm_num

theorem decode_hiF_75 (c : Nat) (q : Bool) (h : c / 4096 % 16 = 15)
    (hl : c % 256 = 0x75) : fromOpcode c q = .LD_R_REG (opcode2vx c) := by
  simp only [fromOpcode]; rw [h, hl]; norm_num

theorem decode_hiF_85 (c : Nat) (q : Bool) (h : c / 4096 % 16 = 15)
    (hl : c % 256 = 0x85) : fromOpcode c q = .LD_REG_R (opcode2vx c) := by
  simp only [fromOpcode]; rw [h, hl]; norm_num

/-- C1 (counterexample): the codec round-trip claim fails as stated.  The
instruction SHR with vx = 0, vy = 1 has valid operand values (both register
indices are below 16), yet in non-quirks mode the encoder emits 0x8006,
whose decoding carries no vy information, so decode(encode(i, false), false)
is not i. -/
theorem codec_roundtrip_counterexample :
    validOperands false (.SHR 0 1) = true ∧
    fromOpcode (toOpcode (.SHR 0 1) false) false ≠ .SHR 0 1 := by
  refine ⟨by decide, by decide⟩

/-- C1 (amended): for every instruction variant with valid operand values
(register indices 0-15, 12-bit addresses, 8-bit bytes, 4-bit nibbles, and
Invalid carrying an opcode that decodes to no variant) and each shift-quirks
mode, decoding the encoding yields the same instruction, provided that in
non-quirks mode the shift instructions SHR/SHL carry vy = 0 (vy is not a
meaningful operand of a shift in that mode and its bits are not encoded). -/
theorem codec_roundtrip_amended (q : Bool) (i : Instr)
    (hv : validOperands q i = true) (hs : q = false → nonQuirkShiftOk i = true) :
    fromOpcode (toOpcode i q) q = i := by
  cases i with
  | INVALID c =>
      simp only [validOperands, Bool.and_eq_true, beq_iff_eq, decide_eq_true_eq] at hv
      simpa [toOpcode] using hv.2
  | SCD n =>
      simp only [validOperands, decide_eq_true_eq] at hv
      simp only [toOpcode, nibble2opcode]
      rw [decode_hi0_scd _ _ (by omega) (by omega)]
      simp only [opcode2nibble, Instr.SCD.injEq]
      omega
  | CLS => cases q <;> rfl
  | RET => cases q <;> rfl
  | SCR => cases q <;> rfl
  | SCL => cases q <;> rfl
  | EXIT => cases q <;> rfl
  | LOW => cases q <;> rfl
  | HIGH => cases q <;> rfl
  | JP a =>
      simp only [validOperands, decide_eq_true_eq] at hv
      simp only [toOpcode, addr2opcode]
      rw [decode_hi1 _ _ (by omega)]
      simp only [opcode2addr, Instr.JP.injEq]
      omega
  | CALL a =>
      simp only [validOperands, decide_eq_true_eq] at hv
      simp only [toOpcode, addr2opcode]
      rw [decode_hi2 _ _ (by omega)]
      simp only [opcode2addr, Instr.CALL.injEq]
      omega
  | SE_BYTE vx b =>
      simp only [validOperands, Bool.and_eq_true, decide_eq_true_eq] at hv
      simp only [toOpcode, vx2opcode, byte2opcode]
      rw [decode_hi3 _ _ (by omega)]
      simp only [opcode2vx, opcode2byte, Instr.SE_BYTE.injEq]
      omega
  | SNE_BYTE vx b =>
      simp only [validOperands, Bool.and_eq_true, decide_eq_true_eq] at hv
      simp only [toOpcode, vx2opcode, byte2opcode]
      rw [decode_hi4 _ _ (by omega)]
      simp only [opcode2vx, opcode2byte, Instr.SNE_BYTE.injEq]
      omega
  | SE_REG vx vy =>
      simp only [validOperands, Bool.and_eq_true, decide_eq_true_eq] at hv
      simp only [toOpcode, vx2opcode, vy2opcode]
      rw [decode_hi5 _ _ (by omega) (by omega)]
      simp only [opcode2vx, opcode2vy, Instr.SE_REG.injEq]
      omega
  | LD_BYTE vx b =>
      simp only [validOperands, Bool.and_eq_true, decide_eq_true_eq] at hv
      simp only [toOpcode, vx2opcode, byte2opcode]
      rw [decode_hi6 _ _ (by omega)]
      simp only [opcode2vx, opcode2byte, Instr.LD_BYTE.injEq]
      omega
  | ADD_BYTE vx b =>
      simp only [validOperands, Bool.and_eq_true, decide_eq_true_eq] at hv
      simp only [toOpcode, vx2opcode, byte2opcode]
      rw [decode_hi7 _ _ (by omega)]
      simp only [opcode2vx, opcode2byte, Instr.ADD_BYTE.injEq]
      omega
  | LD_REG vx vy =>
      simp only [validOperands, Bool.and_eq_true, decide_eq_true_eq] at hv
      simp only [toOpcode, vx2opcode, vy2opcode]
      rw [decode_hi8_0 _ _ (by omega) (by omega)]
      simp only [opcode2vx, opcode2vy, Instr.LD_REG.injEq]
      omega
  | OR vx vy =>
      simp only [validOperands, Bool.and_eq_true, decide_eq_true_eq] at hv
      simp only [toOpcode, vx2opcode, vy2opcode]
      rw [decode_hi8_1 _ _ (by omega) (by omega)]
      simp only [opcode2vx, opcode2vy, Instr.OR.injEq]
      omega
  | AND vx vy =>
      simp only [validOperands, Bool.and_eq_true, decide_eq_true_eq] at hv
      simp only [toOpcode, vx2opcode, vy2opcode]
      rw [decode_hi8_2 _ _ (by omega) (by omega)]
      simp only [opcode2vx, opcode2vy, Instr.AND.injEq]
      omega
  | XOR vx vy =>
      simp only [validOperands, Bool.and_eq_true, decide_eq_true_eq] at hv
      simp only [toOpcode, vx2opcode, vy2opcode]
      rw [decode_hi8_3 _ _ (by omega) (by omega)]
      simp only [opcode2vx, opcode2vy, Instr.XOR.injEq]
      omega
  | ADD_REG vx vy =>
      simp only [validOperands, Bool.and_eq_true, decide_eq_true_eq] at hv
      simp only [toOpcode, vx2opcode, vy2opcode]
      rw [decode_hi8_4 _ _ (by omega) (by omega)]
      simp only [opcode2vx, opcode2vy, Instr.ADD_REG.injEq]
      omega
  | SUB vx vy =>
      simp only [validOperands, Bool.and_eq_true, decide_eq_true_eq] at hv
      simp only [toOpcode, vx2opcode, vy2opcode]
      rw [decode_hi8_5 _ _ (by omega) (by omega)]
      simp only [opcode2vx, opcode2vy, Instr.SUB.injEq]
      omega
  | SHR vx vy =>
      simp only [validOperands, Bool.and_eq_true, decide_eq_true_eq] at hv
      cases q with
      | false =>
          have hz : vy = 0 := by simpa [nonQuirkShiftOk] using hs rfl
          subst hz
          simp only [toOpcode, vx2opcode, vy2opcode, Bool.false_eq_true, if_false]
          rw [decode_hi8_6_z _ (by omega) (by omega) (by omega)]
          simp only [opcode2vx, opcode2vy, Instr.SHR.injEq]
          omega
      | true =>
          simp only [toOpcode, vx2opcode, vy2opcode, if_true]
          rw [decode_hi8_6_q _ (by omega) (by omega)]
          simp only [opcode2vx, opcode2vy, Instr.SHR.injEq]
          omega
  | SUBN vx vy =>
      simp only [validOperands, Bool.and_eq_true, decide_eq_true_eq] at hv
      simp only [toOpcode, vx2opcode, vy2opcode]
      rw [decode_hi8_7 _ _ (by omega) (by omega)]
      simp only [opcode2vx, opcode2vy, Instr.SUBN.injEq]
      omega
  | SHL vx vy =>
      simp only [validOperands, Bool.and_eq_true, decide_eq_true_eq] at hv
      cases q with
      | false =>
          have hz : vy = 0 := by simpa [nonQuirkShiftOk] using hs rfl
          subst hz
          simp only [toOpcode, vx2opcode, vy2opcode, Bool.false_eq_true, if_false]
          rw [decode_hi8_e_z _ (by omega) (by omega) (by omega)]
          simp only [opcode2vx, opcode2vy, Instr.SHL.injEq]
          omega
      | true =>
          simp only [toOpcode, vx2opcode, vy2opcode, if_true]
          rw [decode_hi8_e_q _ (by omega) (by omega)]
          simp only [opcode2vx, opcode2vy, Instr.SHL.injEq]
          omega
  | SNE_REG vx vy =>
      simp only [validOperands, Bool.and_eq_true, decide_eq_true_eq] at hv
      simp only [toOpcode, vx2opcode, vy2opcode]
      rw [decode_hi9 _ _ (by omega) (by omega)]
      simp only [opcode2vx, opcode2vy, Instr.SNE_REG.injEq]
      omega
  | LD_I a =>
      simp only [validOperands, decide_eq_true_eq] at hv
      simp only [toOpcode, addr2opcode]
      rw [decode_hiA _ _ (by omega)]
      simp only [opcode2addr, Instr.LD_I.injEq]
      omega
  | JP_V0 a =>
      simp only [validOperands, decide_eq_true_eq] at hv
      simp only [toOpcode, addr2opcode]
      rw [decode_hiB _ _ (by omega)]
      simp only [opcode2addr, Instr.JP_V0.injEq]
      omega
  | RND vx b =>
      simp only [validOperands, Bool.and_eq_true, decide_eq_true_eq] at hv
      simp only [toOpcode, vx2opcode, byte2opcode]
      rw [decode_hiC _ _ (by omega)]
      simp only [opcode2vx, opcode2byte, Instr.RND.injEq]
      omega
  | DRW vx vy n =>
      simp only [validOperands, Bool.and_eq_true, decide_eq_true_eq] at hv
      simp only [toOpcode, vx2opcode, vy2opcode, nibble2opcode]
      rw [decode_hiD _ _ (by omega)]
      simp only [opcode2vx, opcode2vy, opcode2nibble, Instr.DRW.injEq]
      omega
  | SKP vx =>
      simp only [validOperands, decide_eq_true_eq] at hv
      simp only [toOpcode, vx2opcode]
      rw [decode_hiE_9E _ _ (by omega) (by omega)]
      simp only [opcode2vx, Instr.SKP.injEq]
      omega
  | SKNP vx =>
      simp only [validOperands, decide_eq_true_eq] at hv
      simp only [toOpcode, vx2opcode]
      rw [decode_hiE_A1 _ _ (by omega) (by omega)]
      simp only [opcode2vx, Instr.SKNP.injEq]
      omega
  | LD_REG_DT vx =>
      simp only [validOperands, decide_eq_true_eq] at hv
      simp only [toOpcode, vx2opcode]
      rw [decode_hiF_07 _ _ (by omega) (by omega)]
      simp only [opcode2vx, Instr.LD_REG_DT.injEq]
      omega
  | LD_KEY vx =>
      simp only [validOperands, decide_eq_true_eq] at hv
      simp only [toOpcode, vx2opcode]
      rw [decode_hiF_0A _ _ (by omega) (by omega)]
      simp only [opcode2vx, Instr.LD_KEY.injEq]
      omega
  | LD_DT_REG vx =>
      simp only [validOperands, decide_eq_true_eq] at hv
      simp only [toOpcode, vx2opcode]
      rw [decode_hiF_15 _ _ (by omega) (by omega)]
      simp only [opcode2vx, Instr.LD_DT_REG.injEq]
      omega
  | LD_ST vx =>
      simp only [validOperands, decide_eq_true_eq] at hv
      simp only [toOpcode, vx2opcode]
      rw [decode_hiF_18 _ _ (by omega) (by omega)]
      simp only [opcode2vx, Instr.LD_ST.injEq]
      omega
  | ADD_I vx =>
      simp only [validOperands, decide_eq_true_eq] at hv
      simp only [toOpcode, vx2opcode]
      rw [decode_hiF_1E _ _ (by omega) (by omega)]
      simp only [opcode2vx, Instr.ADD_I.injEq]
      omega
  | LD_F vx =>
      simp only [validOperands, decide_eq_true_eq] at hv
      simp only [toOpcode, vx2opcode]
      rw [decode_hiF_29 _ _ (by omega) (by omega)]
      simp only [opcode2vx, Instr.LD_F.injEq]
      omega
  | LD_HF vx =>
      simp only [validOperands, decide_eq_true_eq] at hv
      simp only [toOpcode, vx2opcode]
      rw [decode_hiF_30 _ _ (by omega) (by omega)]
      simp only [opcode2vx, Instr.LD_HF.injEq]
      omega
  | LD_B vx =>
      simp only [validOperands, decide_eq_true_eq] at hv
      simp only [toOpcode, vx2opcode]
      rw [decode_hiF_33 _ _ (by omega) (by omega)]
      simp only [opcode2vx, Instr.LD_B.injEq]
      omega
  | LD_DEREF_I_REG vx =>
      simp only [validOperands, decide_eq_true_eq] at hv
      simp only [toOpcode, vx2opcode]
      rw [decode_hiF_55 _ _ (by omega) (by omega)]
      simp only [opcode2vx, Instr.LD_DEREF_I_REG.injEq]
      omega
  | LD_REG_DEREF_I vx =>
      simp only [validOperands, decide_eq_true_eq] at hv
      simp only [toOpcode, vx2opcode]
      rw [decode_hiF_65 _ _ (by omega) (by omega)]
      simp only [opcode2vx, Instr.LD_REG_DEREF_I.injEq]
      omega
  | LD_R_REG vx =>
      simp only [validOperands, decide_eq_true_eq] at hv
      simp only [toOpcode, vx2opcode]
      rw [decode_hiF_75 _ _ (by omega) (by omega)]
      simp only [opcode2vx, Instr.LD_R_REG.injEq]
      omega
  | LD_REG_R vx =>
      simp only [validOperands, decide_eq_true_eq] at hv
      simp only [toOpcode, vx2opcode]
      rw [decode_hiF_85 _ _ (by omega) (by omega)]
      simp only [opcode2vx, Instr.LD_REG_R.injEq]
      omega

/-- C1 (witness): the amended round trip applied to SHR V3 (non-quirks) and
to a DRW instruction in quirks mode. -/
theorem codec_roundtrip_amended_witness :
    fromOpcode (toOpcode (.SHR 3 0) false) false = .SHR 3 0 ∧
    fromOpcode (toOpcode (.DRW 1 2 3) true) true = .DRW 1 2 3 :=
  ⟨codec_roundtrip_amended false (.SHR 3 0) (by decide) (fun _ => by decide),
   codec_roundtrip_amended true (.DRW 1 2 3) (by decide) (fun h => by cases h)⟩

/-- C2: decoding the shift patterns 8xy6 and 8xyE.  In quirks mode every x
and y decodes to SHR/SHL with vx = x and vy = y; in non-quirks mode the
pattern decodes to the shift (with only vx meaningful, vy being the zero y
nibble) exactly when the y nibble is zero, and to Invalid(opcode) whenever
the y nibble is nonzero. -/
theorem shift_pattern_decode :
    ∀ x, x < 16 → ∀ y, y < 16 →
      (fromOpcode (0x8000 + x * 256 + y * 16 + 0x6) true = .SHR x y ∧
       fromOpcode (0x8000 + x * 256 + y * 16 + 0xE) true = .SHL x y) ∧
      (y = 0 →
        fromOpcode (0x8000 + x * 256 + y * 16 + 0x6) false = .SHR x 0 ∧
        fromOpcode (0x8000 + x * 256 + y * 16 + 0xE) false = .SHL x 0) ∧
      (y ≠ 0 →
        fromOpcode (0x8000 + x * 256 + y * 16 + 0x6) false =
          .INVALID (0x8000 + x * 256 + y * 16 + 0x6) ∧
        fromOpcode (0x8000 + x * 256 + y * 16 + 0xE) false =
          .INVALID (0x8000 + x * 256 + y * 16 + 0xE)) := by
  intro x hx y hy
  refine ⟨⟨?_, ?_⟩, fun h0 => ?_, fun hne => ⟨?_, ?_⟩⟩
  · rw [decode_hi8_6_q _ (by omega) (by omega)]
    simp only [opcode2vx, opcode2vy, Instr.SHR.injEq]
    omega
  · rw [decode_hi8_e_q _ (by omega) (by omega)]
    simp only [opcode2vx, opcode2vy, Instr.SHL.injEq]
    omega
  · subst h0
    constructor
    · rw [decode_hi8_6_z _ (by omega) (by omega) (by omega)]
      simp only [opcode2vx, opcode2vy, Instr.SHR.injEq]
      omega
    · rw [decode_hi8_e_z _ (by omega) (by omega) (by omega)]
      simp only [opcode2vx, opcode2vy, Instr.SHL.injEq]
      omega
  · rw [decode_hi8_6_nz _ (by omega) (by omega) (by omega)]
  · rw [decode_hi8_e_nz _ (by omega) (by omega) (by omega)]

/-- C2 (witness): the shift-pattern decode facts at x = 1, y = 2 and the
zero-nibble case at x = 1, y = 0. -/
theorem shift_pattern_decode_witness :
    fromOpcode 0x8126 true = .SHR 1 2 ∧
    fromOpcode 0x8106 false = .SHR 1 0 ∧
    fromOpcode 0x8126 false = .INVALID 0x8126 :=
  ⟨((shift_pattern_decode 1 (by decide) 2 (by decide)).1.1),
   by
     have h := (shift_pattern_decode 1 (by decide) 0 (by decide)).2.1 rfl
     exact h.1,
   by
     have h := (shift_pattern_decode 1 (by decide) 2 (by decide)).2.2 (by decide)
     exact h.1⟩

/-! ## Assembler, from src/assembler.c

Character classification mirrors ctype.h in the C locale (the assembler only
ever sees ASCII). -/

def isSpaceC (c : Char) : Bool :=
  c == ' ' || c == '\t' || c == '\n' || c == '\x0b' || c == '\x0c' || c == '\r'

def isDigitC (c : Char) : Bool := '0' ≤ c && c ≤ '9'

def isAlphaC (c : Char) : Bool :=
  ('A' ≤ c && c ≤ 'Z') || ('a' ≤ c && c ≤ 'z')

def isAlnumC (c : Char) : Bool := isAlphaC c || isDigitC c

/-- Macro isidentstart. -/
def isIdentStart (c : Char) : Bool := isAlphaC c || c == '_'

/-- Macro isidentbody. -/
def isIdentBody (c : Char) : Bool := isAlnumC c || c == '_'

/-- ASCII tolower, as strcasecmp uses it. -/
def asciiLower (c : Char) : Char :=
  if 'A' ≤ c && c ≤ 'Z' then Char.ofNat (c.toNat + 32) else c

/-- Function strcasecmp specialized to an equality test. -/
def strCaseEq (a b : String) : Bool :=
  a.data.map asciiLower == b.data.map asciiLower

/-- Function hash_str: the djb2 hash; `unsigned long` is 64 bits here. -/
def hashStr (s : String) : Nat :=
  s.data.foldl (fun h c => (h * 33 + c.toNat) % 18446744073709551616) 5381

/-- The label table: 256 chained buckets indexed by hash_str mod LTABLE_SIZE;
each bucket is the chain of (label, addr) entries in list order. -/
abbrev Ltable : Type := List (List (String × Nat))

def ltableEmpty : Ltable := List.replicate 256 []

/-- Chain walk of ltable_get within one bucket. -/
def bucketGet : List (String × Nat) → String → Option Nat
  | [], _ => none
  | e :: rest, key => if key = e.1 then some e.2 else bucketGet rest key

/-- Function ltable_get. -/
def ltableGet (tab : Ltable) (key : String) : Option Nat :=
  bucketGet (tab.getD (hashStr key % 256) []) key

/-- Function ltable_add, bucket part, translated exactly as written.  The C
duplicate-scan loop is `while (b->next)` with a body that never advances b:
with an empty bucket a fresh head is inserted; with a single entry the loop
body never runs, so a duplicate of that entry is appended without any check
and the function reports false; with two or more entries the loop either
matches the head (updating its value and reporting true) or never
terminates.  The none result models that non-termination. -/
def ltableAddBucket (bucket : List (String × Nat)) (label : String) (addr : Nat) :
    Option (List (String × Nat) × Bool) :=
  match bucket with
  | [] => some ([(label, addr)], false)
  | [e] => some ([e, (label, addr)], false)
  | e :: f :: rest =>
      if label = e.1 then some ((e.1, addr) :: f :: rest, true) else none

/-- Function ltable_add. -/
def ltableAdd (tab : Ltable) (label : String) (addr : Nat) :
    Option (Ltable × Bool) :=
  let idx := hashStr label % 256
  match ltableAddBucket (tab.getD idx []) label addr with
  | none => none
  | some (b, found) => some (tab.set idx b, found)

/-- Distinct error exits of the assembler, one per FAIL_MSG call site family;
a callee's error is propagated unchanged by its callers. -/
inductive AsmErr where
  | unknownIdent
  | expectedHex
  | expectedBin
  | expectedDec
  | unmatchedClose
  | unexpectedUnary
  | unknownOperator
  | opStackOverflow
  | numStackOverflow
  | unmatchedOpen
  | expectedOperation
  | expectedArgument
  | divideByZero
  | multipleLabels
  | emptyOperand
  | tooManyOperands
  | wrongOperandCountAssign
  | duplicateSymbol
  | tooFewOperandsFor
  | tooManyOperandsFor
  | unexpectedElse
  | unexpectedEndif
  | invalidInstruction
  | invalidInstructionEmit
  | invalidOperationCompile
  | notARegister
  deriving DecidableEq, Repr

/-- Results of assembler operations: success, an error exit, or the
non-termination a buggy ltable_add chain walk can produce. -/
inductive AsmRes (α : Type) where
  | ok (a : α)
  | fail (e : AsmErr)
  | hang
  deriving DecidableEq, Repr

/-- Function skip_spaces. -/
def skipSpacesChars : List Char → List Char
  | [] => []
  | c :: rest => if isSpaceC c then skipSpacesChars rest else c :: rest

/-- Hexadecimal digit value, as the character arithmetic in parse_num_hex. -/
def hexDigitVal (c : Char) : Option Nat :=
  if isDigitC c then some (c.toNat - 48)
  else if 'A' ≤ c && c ≤ 'F' then some (c.toNat - 65 + 10)
  else if 'a' ≤ c && c ≤ 'f' then some (c.toNat - 97 + 10)
  else none

/-- Accumulating loop of parse_num_hex; n is a uint16. -/
def parseNumHexLoop : List Char → Nat → Nat × List Char
  | [], n => (n, [])
  | c :: rest, n =>
      match hexDigitVal c with
      | some d => parseNumHexLoop rest ((16 * n + d) % 65536)
      | none => (n, c :: rest)

/-- Function parse_num_hex: fails iff no digit was consumed. -/
def parseNumHex (s : List Char) : Option (Nat × List Char) :=
  match s with
  | [] => none
  | c :: _ => if (hexDigitVal c).isSome then some (parseNumHexLoop s 0) else none

/-- Accumulating loop of parse_num_bin; a dot is a zero-digit placeholder. -/
def parseNumBinLoop : List Char → Nat → Nat × List Char
  | [], n => (n, [])
  | c :: rest, n =>
      if c == '.' then parseNumBinLoop rest (2 * n % 65536)
      else if c == '0' || c == '1' then
        parseNumBinLoop rest ((2 * n + (c.toNat - 48)) % 65536)
      else (n, c :: rest)

/-- Function parse_num_bin. -/
def parseNumBin (s : List Char) : Option (Nat × List Char) :=
  match s with
  | [] => none
  | c :: _ =>
      if c == '.' || c == '0' || c == '1' then some (parseNumBinLoop s 0)
      else none

/-- Accumulating loop of parse_num_dec. -/
def parseNumDecLoop : List Char → Nat → Nat × List Char
  | [], n => (n, [])
  | c :: rest, n =>
      if isDigitC c then parseNumDecLoop rest ((10 * n + (c.toNat - 48)) % 65536)
      else (n, c :: rest)

/-- Function parse_num_dec. -/
def parseNumDec (s : List Char) : Option (Nat × List Char) :=
  match s with
  | [] => none
  | c :: _ => if isDigitC c then some (parseNumDecLoop s 0) else none

/-- Body collector of parse_ident. -/
def takeIdentBody : List Char → List Char × List Char
  | [] => ([], [])
  | c :: rest =>
      if isIdentBody c then
        let (b, r) := takeIdentBody rest
        (c :: b, r)
      else ([], c :: rest)

/-- Function parse_ident. -/
def parseIdent (s : List Char) : Option (String × List Char) :=
  match s with
  | [] => none
  | c :: rest =>
      if isIdentStart c then
        let (b, r) := takeIdentBody rest
        some (String.mk (c :: b), r)
      else none

/-- Function precedence. -/
def precedence (op : Char) : Int :=
  if op == '|' then 1
  else if op == '^' then 2
  else if op == '&' then 3
  else if op == '>' || op == '<' then 4
  else if op == '+' || op == '-' then 5
  else if op == '*' || op == '/' || op == '%' then 6
  else if op == '~' || op == '_' then 1000
  else -1

/-- Function operator_apply.  The number stack holds uint16 values, top
first; all arithmetic reduces modulo 2^16 exactly where the C's uint16
assignments truncate.  Division or remainder by zero is undefined behaviour
in the C and is mapped to a dedicated error exit; no claim exercises it. -/
def operatorApply (op : Char) (nums : List Nat) : AsmRes (List Nat) :=
  if op == '~' || op == '_' then
    match nums with
    | [] => .fail .expectedArgument
    | top :: rest =>
        if op == '~' then .ok ((65535 - top) % 65536 :: rest)
        else .ok ((65536 - top) % 65536 :: rest)
  else
    match nums with
    | b :: a :: rest =>
        if op == '&' then .ok ((a &&& b) :: rest)
        else if op == '|' then .ok ((a ||| b) :: rest)
        else if op == '^' then .ok ((a ^^^ b) :: rest)
        else if op == '>' then .ok (a >>> b :: rest)
        else if op == '<' then .ok ((a <<< b) % 65536 :: rest)
        else if op == '+' then .ok ((a + b) % 65536 :: rest)
        else if op == '-' then .ok ((a + 65536 - b) % 65536 :: rest)
        else if op == '*' then .ok (a * b % 65536 :: rest)
        else if op == '/' then
          if b = 0 then .fail .divideByZero else .ok (a / b :: rest)
        else if op == '%' then
          if b = 0 then .fail .divideByZero else .ok (a % b :: rest)
        else .fail .unknownOperator
    | _ => .fail .expectedArgument

/-- Pop-and-apply loop `while (oppos > 0 && precedence(opstack[oppos-1]) > p)`
used for the right-associative unary operators. -/
def applyWhileGtPrec (p : Int) (ops : List Char) (nums : List Nat) :
    AsmRes (List Char × List Nat) :=
  match ops with
  | [] => .ok ([], nums)
  | top :: rest =>
      if precedence top > p then
        match operatorApply top nums with
        | .ok nums2 => applyWhileGtPrec p rest nums2
        | .fail e => .fail e
        | .hang => .hang
      else .ok (top :: rest, nums)

/-- Pop-and-apply loop with >= comparison, used for the left-associative
binary operators. -/
def applyWhileGePrec (p : Int) (ops : List Char) (nums : List Nat) :
    AsmRes (List Char × List Nat) :=
  match ops with
  | [] => .ok ([], nums)
  | top :: rest =>
      if precedence top ≥ p then
        match operatorApply top nums with
        | .ok nums2 => applyWhileGePrec p rest nums2
        | .fail e => .fail e
        | .hang => .hang
      else .ok (top :: rest, nums)

/-- Pop-and-apply loop of the ')' branch, stopping at the matching '('. -/
def applyUntilOpenParen (ops : List Char) (nums : List Nat) :
    AsmRes (List Char × List Nat) :=
  match ops with
  | [] => .ok ([], nums)
  | top :: rest =>
      if top == '(' then .ok (top :: rest, nums)
      else
        match operatorApply top nums with
        | .ok nums2 => applyUntilOpenParen rest nums2
        | .fail e => .fail e
        | .hang => .hang

/-- Main token loop of chip8asm_eval.  One fuel unit per iteration; every
iteration consumes at least one character, so expr.length + 1 fuel always
suffices and the fuel-exhaustion branch is unreachable from chip8asmEval. -/
def evalLoop (tab : Ltable) : Nat → List Char → List Char → List Nat → Bool →
    AsmRes (List Char × List Nat)
  | 0, _, _, _, _ => .hang
  | fuel + 1, expr, ops, nums, expectingNum =>
    let step := fun (expr2 : List Char) (ops2 : List Char) (nums2 : List Nat)
        (exp2 : Bool) =>
      if ops2.length = 100 then AsmRes.fail .opStackOverflow
      else if nums2.length = 100 then AsmRes.fail .numStackOverflow
      else evalLoop tab fuel (skipSpacesChars expr2) ops2 nums2 exp2
    match expr with
    | [] => .ok (ops, nums)
    | c :: rest =>
      if expectingNum && c == '-' then
        match applyWhileGtPrec 1000 ops nums with
        | .ok (ops2, nums2) => step rest ('_' :: ops2) nums2 expectingNum
        | .fail e => .fail e
        | .hang => .hang
      else if c == '#' then
        match parseNumHex rest with
        | none => .fail .expectedHex
        | some (n, rest2) => step rest2 ops (n :: nums) false
      else if c == '$' then
        match parseNumBin rest with
        | none => .fail .expectedBin
        | some (n, rest2) => step rest2 ops (n :: nums) false
      else if isDigitC c then
        match parseNumDec (c :: rest) with
        | none => .fail .expectedDec
        | some (n, rest2) => step rest2 ops (n :: nums) false
      else if isIdentStart c then
        match parseIdent (c :: rest) with
        | none => .fail .unknownIdent
        | some (name, rest2) =>
            match ltableGet tab name with
            | none => .fail .unknownIdent
            | some v => step rest2 ops (v :: nums) false
      else if c == '(' then
        step rest ('(' :: ops) nums true
      else if c == ')' then
        match applyUntilOpenParen ops nums with
        | .ok ([], _) => .fail .unmatchedClose
        | .ok (_ :: ops2, nums2) => step rest ops2 nums2 false
        | .fail e => .fail e
        | .hang => .hang
      else if c == '~' then
        if !expectingNum then .fail .unexpectedUnary
        else
          match applyWhileGtPrec 1000 ops nums with
          | .ok (ops2, nums2) => step rest ('~' :: ops2) nums2 expectingNum
          | .fail e => .fail e
          | .hang => .hang
      else
        if precedence c < 0 then .fail .unknownOperator
        else
          match applyWhileGePrec (precedence c) ops nums with
          | .ok (ops2, nums2) => step rest (c :: ops2) nums2 true
          | .fail e => .fail e
          | .hang => .hang

/-- Final drain of the operator stack after the token loop. -/
def drainOps : List Char → List Nat → AsmRes (List Nat)
  | [], nums => .ok nums
  | op :: rest, nums =>
      if op == '(' then .fail .unmatchedOpen
      else
        match operatorApply op nums with
        | .ok nums2 => drainOps rest nums2
        | .fail e => .fail e
        | .hang => .hang

/-- Function chip8asm_eval. -/
def chip8asmEval (tab : Ltable) (expr : List Char) : AsmRes Nat :=
  match evalLoop tab (expr.length + 1) expr [] [] true with
  | .fail e => .fail e
  | .hang => .hang
  | .ok (ops, nums) =>
      match drainOps ops nums with
      | .fail e => .fail e
      | .hang => .hang
      | .ok [v] => .ok v
      | .ok _ => .fail .expectedOperation

/-- Evaluation of an expression given as a string. -/
def chip8asmEvalStr (tab : Ltable) (s : String) : AsmRes Nat :=
  chip8asmEval tab s.data

/-- C8: the expression evaluator computes in unsigned 16-bit arithmetic with
wrap-around, and each of the specified example expressions evaluates to the
stated value; the final conjunct exercises wrap-around on overflow. -/
theorem eval_examples :
    chip8asmEvalStr ltableEmpty "2 + #F - $10" = .ok 15 ∧
    chip8asmEvalStr ltableEmpty "-1" = .ok 0xFFFF ∧
    chip8asmEvalStr ltableEmpty "((4 + 4) * (#0a - $00000010))" = .ok 64 ∧
    chip8asmEvalStr ltableEmpty "~$01010101 | $01010101 ^ $00001111 & $10101010" = .ok 0xFFFF ∧
    chip8asmEvalStr ltableEmpty "7 > 2 < 2" = .ok 4 ∧
    chip8asmEvalStr ltableEmpty "~--~45" = .ok 45 ∧
    chip8asmEvalStr ltableEmpty "#FFFF + 3" = .ok 2 := by
  decide

/-! ### Assembler state and instruction resolution

The assembler's operation tag is the enum chip8_operation of the header it
compiles against (include/instruction.h), which also has the quirk shift
tags; the assembler encodes through the single-argument
chip8_instruction_to_opcode of that revision. -/

inductive AsmOp where
  | INVALID
  | SCD
  | CLS
  | RET
  | SCR
  | SCL
  | EXIT
  | LOW
  | HIGH
  | JP
  | CALL
  | SE_BYTE
  | SNE_BYTE
  | SE_REG
  | LD_BYTE
  | ADD_BYTE
  | LD_REG
  | OR
  | AND
  | XOR
  | ADD_REG
  | SUB
  | SHR
  | SHR_QUIRK
  | SUBN
  | SHL
  | SHL_QUIRK
  | SNE_REG
  | LD_I
  | JP_V0
  | RND
  | DRW
  | SKP
  | SKNP
  | LD_REG_DT
  | LD_KEY
  | LD_DT_REG
  | LD_ST
  | ADD_I
  | LD_F
  | LD_HF
  | LD_B
  | LD_DEREF_I_REG
  | LD_REG_DEREF_I
  | LD_R_REG
  | LD_REG_R
  deriving DecidableEq, Repr

/-- The struct chip8_instruction the assembler builds in
chip8asm_compile_chip8op: tag, vx and vy (C persists them as enum values, an
int that the buggy register-operand path can leave at -1), and the union
word holding opcode, addr or the 8-bit byte/nibble member. -/
structure ACi where
  op : AsmOp
  vx : Int
  vy : Int
  word : Nat
  deriving DecidableEq, Repr

/-- Macro VX2OPCODE on the int-valued enum: (vx & 0xF) << 8 in two's
complement, so -1 contributes 0xF00. -/
def vx2opcodeI (vx : Int) : Nat := (vx % 16).toNat * 256

/-- Macro VY2OPCODE on the int-valued enum. -/
def vy2opcodeI (vy : Int) : Nat := (vy % 16).toNat * 16

/-- Function chip8_instruction_to_opcode, single-argument revision
(src/instruction.c): the switch has no case for the quirk shift tags, which
therefore fall through to the final return 0. -/
def toOpcodeAsm (i : ACi) : Nat :=
  match i.op with
  | .INVALID => i.word
  | .SCD => 0x00C0 + i.word % 16
  | .CLS => 0x00E0
  | .RET => 0x00EE
  | .SCR => 0x00FB
  | .SCL => 0x00FC
  | .EXIT => 0x00FD
  | .LOW => 0x00FE
  | .HIGH => 0x00FF
  | .JP => 0x1000 + i.word % 4096
  | .CALL => 0x2000 + i.word % 4096
  | .SE_BYTE => 0x3000 + vx2opcodeI i.vx + i.word % 256
  | .SNE_BYTE => 0x4000 + vx2opcodeI i.vx + i.word % 256
  | .SE_REG => 0x5000 + vx2opcodeI i.vx + vy2opcodeI i.vy
  | .LD_BYTE => 0x6000 + vx2opcodeI i.vx + i.word % 256
  | .ADD_BYTE => 0x7000 + vx2opcodeI i.vx + i.word % 256
  | .LD_REG => 0x8000 + vx2opcodeI i.vx + vy2opcodeI i.vy
  | .OR => 0x8001 + vx2opcodeI i.vx + vy2opcodeI i.vy
  | .AND => 0x8002 + vx2opcodeI i.vx + vy2opcodeI i.vy
  | .XOR => 0x8003 + vx2opcodeI i.vx + vy2opcodeI i.vy
  | .ADD_REG => 0x8004 + vx2opcodeI i.vx + vy2opcodeI i.vy
  | .SUB => 0x8005 + vx2opcodeI i.vx + vy2opcodeI i.vy
  | .SHR => 0x8006 + vx2opcodeI i.vx
  | .SHR_QUIRK => 0
  | .SUBN => 0x8007 + vx2opcodeI i.vx + vy2opcodeI i.vy
  | .SHL => 0x800E + vx2opcodeI i.vx
  | .SHL_QUIRK => 0
  | .SNE_REG => 0x9000 + vx2opcodeI i.vx + vy2opcodeI i.vy
  | .LD_I => 0xA000 + i.word % 4096
  | .JP_V0 => 0xB000 + i.word % 4096
  | .RND => 0xC000 + vx2opcodeI i.vx + i.word % 256
  | .DRW => 0xD000 + vx2opcodeI i.vx + vy2opcodeI i.vy + i.word % 16
  | .SKP => 0xE09E + vx2opcodeI i.vx
  | .SKNP => 0xE0A1 + vx2opcodeI i.vx
  | .LD_REG_DT => 0xF007 + vx2opcodeI i.vx
  | .LD_KEY => 0xF00A + vx2opcodeI i.vx
  | .LD_DT_REG => 0xF015 + vx2opcodeI i.vx
  | .LD_ST => 0xF018 + vx2opcodeI i.vx
  | .ADD_I => 0xF01E + vx2opcodeI i.vx
  | .LD_F => 0xF029 + vx2opcodeI i.vx
  | .LD_HF => 0xF030 + vx2opcodeI i.vx
  | .LD_B => 0xF033 + vx2opcodeI i.vx
  | .LD_DEREF_I_REG => 0xF055 + vx2opcodeI i.vx
  | .LD_REG_DEREF_I => 0xF065 + vx2opcodeI i.vx
  | .LD_R_REG => 0xF075 + vx2opcodeI i.vx
  | .LD_REG_R => 0xF085 + vx2opcodeI i.vx

/-- Function register_num: V/v followed by exactly one hexadecimal digit. -/
def registerNum (name : String) : Option Nat :=
  match name.data with
  | [c0, c1] =>
      if c0 == 'V' || c0 == 'v' then
        if isDigitC c1 then some (c1.toNat - 48)
        else if 'A' ≤ c1 && c1 ≤ 'F' then some (c1.toNat - 65 + 10)
        else if 'a' ≤ c1 && c1 ≤ 'f' then some (c1.toNat - 97 + 10)
        else none
      else none
  | _ => none

/-- Enum instruction_type. -/
inductive ITy where
  | invalid
  | chip8op
  | db
  | dw
  deriving DecidableEq, Repr

/-- Struct instruction: a pending instruction buffered during pass 1; the
operand expressions stay as unparsed text until emit. -/
structure Pending where
  ty : ITy
  chipop : AsmOp
  operands : List String
  line : Nat
  pc : Nat
  deriving DecidableEq, Repr

/-- Struct chip8asm. -/
structure Asm where
  shiftQuirks : Bool
  labels : Ltable
  instructions : List Pending
  lineLabel : Option String
  line : Nat
  pc : Nat
  ifLevel : Nat
  ifSkipElse : Nat
  ifSkipEndif : Nat
  deriving DecidableEq, Repr

/-- Function chip8asm_new. -/
def asmNew (shiftQuirks : Bool) : Asm :=
  { shiftQuirks := shiftQuirks, labels := ltableEmpty, instructions := [],
    lineLabel := none, line := 0, pc := 0x200, ifLevel := 0,
    ifSkipElse := 0, ifSkipEndif := 0 }

/-- Function chip8asm_should_process. -/
def shouldProcess (a : Asm) : Bool := a.ifSkipElse == 0 && a.ifSkipEndif == 0

/-- Function chip8asm_add_instruction.  A pending line label is bound to the
instruction's program-counter slot; on a detected duplicate the C logs and
returns 1 with the label still pending and the instruction dropped (the
returned Bool is false there), which every process_instruction call site
ignores. -/
def addInstruction (a : Asm) (instr : Pending) : AsmRes (Asm × Bool) :=
  match a.lineLabel with
  | some lbl =>
      match ltableAdd a.labels lbl instr.pc with
      | none => .hang
      | some (tab, true) => .ok ({ a with labels := tab }, false)
      | some (tab, false) =>
          .ok ({ a with labels := tab, lineLabel := none, instructions := a.instructions ++ [instr] }, true)
  | none => .ok ({ a with instructions := a.instructions ++ [instr] }, true)

/-- Function chip8asm_process_assignment: the right-hand expression is
evaluated eagerly at the line, so only already-defined symbols resolve. -/
def processAssignment (a : Asm) (label : String) (operands : List String) :
    AsmRes Asm :=
  if shouldProcess a then
    if operands.length ≠ 1 then .fail .wrongOperandCountAssign
    else
      match chip8asmEvalStr a.labels (operands.getD 0 "") with
      | .fail e => .fail e
      | .hang => .hang
      | .ok v =>
          match ltableAdd a.labels label v with
          | none => .hang
          | some (_, true) => .fail .duplicateSymbol
          | some (tab, false) => .ok { a with labels := tab }
  else .ok a

/-- Macro EXPECT_OPERANDS. -/
def expectOperands (want got : Nat) : Option AsmErr :=
  if want > got then some .tooFewOperandsFor
  else if got > want then some .tooManyOperandsFor
  else none

/-- Word alignment of the program counter, (pc + 1) & ~1 on a uint16. -/
def alignPc (pc : Nat) : Nat := (pc + 1) % 65536 / 2 * 2

/-- Common tail of every machine-instruction branch of
chip8asm_process_instruction: align the program counter, record the pending
instruction at the aligned slot, advance the counter by two and run
chip8asm_add_instruction (whose error result the C ignores). -/
def finishMachine (a : Asm) (chipop : AsmOp) (ops : List String) : AsmRes Asm :=
  let a1 := { a with pc := alignPc a.pc }
  let instr : Pending :=
    { ty := .chip8op, chipop := chipop, operands := ops, line := a1.line, pc := a1.pc }
  let a2 := { a1 with pc := (a1.pc + 2) % 65536 }
  match addInstruction a2 instr with
  | .ok (a3, _) => .ok a3
  | .fail e => .fail e
  | .hang => .hang

/-- Machine-instruction branch guarded by EXPECT_OPERANDS (macro CHIPOP). -/
def chipopCase (a : Asm) (chipop : AsmOp) (want : Nat) (operands : List String) :
    AsmRes Asm :=
  match expectOperands want operands.length with
  | some e => .fail e
  | none => finishMachine a chipop (operands.take want)

/-- Function chip8asm_process_instruction. -/
def processInstruction (a : Asm) (op : String) (operands : List String) :
    AsmRes Asm :=
  if strCaseEq op "IFDEF" then
    match expectOperands 1 operands.length with
    | some e => .fail e
    | none =>
        let a1 := { a with ifLevel := a.ifLevel + 1 }
        if shouldProcess a1 && (ltableGet a1.labels (operands.getD 0 "")).isNone then
          .ok { a1 with ifSkipElse := a1.ifLevel }
        else .ok a1
  else if strCaseEq op "IFNDEF" then
    match expectOperands 1 operands.length with
    | some e => .fail e
    | none =>
        let a1 := { a with ifLevel := a.ifLevel + 1 }
        if shouldProcess a1 && (ltableGet a1.labels (operands.getD 0 "")).isSome then
          .ok { a1 with ifSkipElse := a1.ifLevel }
        else .ok a1
  else if strCaseEq op "ELSE" then
    match expectOperands 0 operands.length with
    | some e => .fail e
    | none =>
        if a.ifLevel = 0 then .fail .unexpectedElse
        else if a.ifLevel = a.ifSkipElse then .ok { a with ifSkipElse := 0 }
        else if shouldProcess a then .ok { a with ifSkipEndif := a.ifLevel }
        else .ok a
  else if strCaseEq op "ENDIF" then
    match expectOperands 0 operands.length with
    | some e => .fail e
    | none =>
        if a.ifLevel = 0 then .fail .unexpectedEndif
        else
          .ok { a with
                ifSkipElse := if a.ifLevel = a.ifSkipElse then 0 else a.ifSkipElse,
                ifSkipEndif := if a.ifLevel = a.ifSkipEndif then 0 else a.ifSkipEndif,
                ifLevel := a.ifLevel - 1 }
  else if !shouldProcess a then .ok a
  else if strCaseEq op "DEFINE" then
    match expectOperands 1 operands.length with
    | some e => .fail e
    | none =>
        match ltableAdd a.labels (operands.getD 0 "") 0 with
        | none => .hang
        | some (tab, _) => .ok { a with labels := tab }
  else if strCaseEq op "DB" then
    match expectOperands 1 operands.length with
    | some e => .fail e
    | none =>
        let instr : Pending :=
          { ty := .db, chipop := .INVALID, operands := operands.take 1,
            line := a.line, pc := a.pc }
        match addInstruction a instr with
        | .ok (a2, _) => .ok { a2 with pc := (a2.pc + 1) % 65536 }
        | .fail e => .fail e
        | .hang => .hang
  else if strCaseEq op "DW" then
    match expectOperands 1 operands.length with
    | some e => .fail e
    | none =>
        let instr : Pending :=
          { ty := .dw, chipop := .INVALID, operands := operands.take 1,
            line := a.line, pc := a.pc }
        match addInstruction a instr with
        | .ok (a2, _) => .ok { a2 with pc := (a2.pc + 2) % 65536 }
        | .fail e => .fail e
        | .hang => .hang
  else if strCaseEq op "OPTION" then
    match expectOperands 1 operands.length with
    | some e => .fail e
    | none => .ok a
  else if strCaseEq op "SCD" then chipopCase a .SCD 1 operands
  else if strCaseEq op "CLS" then chipopCase a .CLS 0 operands
  else if strCaseEq op "RET" then chipopCase a .RET 0 operands
  else if strCaseEq op "SCR" then chipopCase a .SCR 0 operands
  else if strCaseEq op "SCL" then chipopCase a .SCL 0 operands
  else if strCaseEq op "EXIT" then chipopCase a .EXIT 0 operands
  else if strCaseEq op "LOW" then chipopCase a .LOW 0 operands
  else if strCaseEq op "HIGH" then chipopCase a .HIGH 0 operands
  else if strCaseEq op "JP" then
    if operands.length = 1 then finishMachine a .JP (operands.take 1)
    else if operands.length = 2 && strCaseEq (operands.getD 0 "") "V0" then
      finishMachine a .JP_V0 [operands.getD 1 ""]
    else
      finishMachine a .INVALID []
  else if strCaseEq op "CALL" then chipopCase a .CALL 1 operands
  else if strCaseEq op "SE" then
    match expectOperands 2 operands.length with
    | some e => .fail e
    | none =>
        if (registerNum (operands.getD 1 "")).isSome then
          finishMachine a .SE_REG (operands.take 2)
        else finishMachine a .SE_BYTE (operands.take 2)
  else if strCaseEq op "SNE" then
    match expectOperands 2 operands.length with
    | some e => .fail e
    | none =>
        if (registerNum (operands.getD 1 "")).isSome then
          finishMachine a .SNE_REG (operands.take 2)
        else finishMachine a .SNE_BYTE (operands.take 2)
  else if strCaseEq op "LD" then
    match expectOperands 2 operands.length with
    | some e => .fail e
    | none =>
        let op0 := operands.getD 0 ""
        let op1 := operands.getD 1 ""
        if strCaseEq op0 "I" then finishMachine a .LD_I [op1]
        else if strCaseEq op0 "DT" then finishMachine a .LD_DT_REG [op1]
        else if strCaseEq op0 "ST" then finishMachine a .LD_ST [op1]
        else if strCaseEq op0 "F" then finishMachine a .LD_F [op1]
        else if strCaseEq op0 "HF" then finishMachine a .LD_HF [op1]
        else if strCaseEq op0 "B" then finishMachine a .LD_B [op1]
        else if strCaseEq op0 "[I]" then finishMachine a .LD_DEREF_I_REG [op1]
        else if strCaseEq op0 "R" then finishMachine a .LD_R_REG [op1]
        else if (registerNum op1).isSome then finishMachine a .LD_REG [op0, op1]
        else if strCaseEq op1 "DT" then finishMachine a .LD_REG_DT [op0]
        else if strCaseEq op1 "K" then finishMachine a .LD_KEY [op0]
        else if strCaseEq op1 "[I]" then finishMachine a .LD_REG_DEREF_I [op0]
        else if strCaseEq op1 "R" then finishMachine a .LD_REG_R [op0]
        else finishMachine a .LD_BYTE [op0, op1]
  else if strCaseEq op "ADD" then
    match expectOperands 2 operands.length with
    | some e => .fail e
    | none =>
        let op0 := operands.getD 0 ""
        let op1 := operands.getD 1 ""
        if strCaseEq op0 "I" then finishMachine a .ADD_I [op1]
        else if (registerNum op1).isSome then finishMachine a .ADD_REG [op0, op1]
        else finishMachine a .ADD_BYTE [op0, op1]
  else if strCaseEq op "OR" then chipopCase a .OR 2 operands
  else if strCaseEq op "AND" then chipopCase a .AND 2 operands
  else if strCaseEq op "XOR" then chipopCase a .XOR 2 operands
  else if strCaseEq op "SUB" then chipopCase a .SUB 2 operands
  else if strCaseEq op "SHR" then
    if a.shiftQuirks then
      match expectOperands 2 operands.length with
      | some e => .fail e
      | none => finishMachine a .SHR_QUIRK (operands.take 2)
    else
      match expectOperands 1 operands.length with
      | some e => .fail e
      | none => finishMachine a .SHR (operands.take 1)
  else if strCaseEq op "SUBN" then chipopCase a .SUBN 2 operands
  else if strCaseEq op "SHL" then
    if a.shiftQuirks then
      match expectOperands 2 operands.length with
      | some e => .fail e
      | none => finishMachine a .SHL_QUIRK (operands.take 2)
    else
      match expectOperands 1 operands.length with
      | some e => .fail e
      | none => finishMachine a .SHL (operands.take 1)
  else if strCaseEq op "RND" then chipopCase a .RND 2 operands
  else if strCaseEq op "DRW" then chipopCase a .DRW 3 operands
  else if strCaseEq op "SKP" then chipopCase a .SKP 1 operands
  else if strCaseEq op "SKNP" then chipopCase a .SKNP 1 operands
  else .fail .invalidInstruction

/-! ### Line parsing (chip8asm_process_line) -/

/-- Scan of parse_operand up to a comma, comment or end of line. -/
def parseOperandRaw : List Char → List Char × List Char
  | [] => ([], [])
  | c :: rest =>
      if c == '\n' || c == ';' || c == ',' then ([], c :: rest)
      else
        let (r, rem) := parseOperandRaw rest
        (c :: r, rem)

/-- Trailing-space trim of parse_operand. -/
def trimRight (l : List Char) : List Char :=
  (l.reverse.dropWhile (fun c => isSpaceC c)).reverse

/-- Function parse_operand: always yields a (possibly empty) operand string
with trailing spaces removed. -/
def parseOperand (s : List Char) : String × List Char :=
  let (raw, rest) := parseOperandRaw s
  (String.mk (trimRight raw), rest)

/-- Label-collection loop at the start of chip8asm_process_line: identifiers
followed by a colon become the (single) statement label; the first
identifier not followed by a colon is the operation name.  One fuel unit per
label; each label consumes at least two characters, so the line length
suffices as fuel and the fuel-exhaustion branch is unreachable from
processLine. -/
def parseLabels (a : Asm) : Nat → List Char → AsmRes (Asm × Option String × List Char)
  | 0, _ => .hang
  | fuel + 1, s =>
      match parseIdent s with
      | none => .ok (a, none, s)
      | some (ident, rest) =>
          match rest with
          | ':' :: rest2 =>
              match a.lineLabel with
              | some _ => .fail .multipleLabels
              | none => parseLabels { a with lineLabel := some ident } fuel (skipSpacesChars rest2)
          | _ => .ok (a, some ident, rest)

/-- Comma loop of the operand collection in chip8asm_process_line.  An empty
operand after a comma is an error; at most MAX_OPERANDS (3) may accumulate. -/
def parseOperandsLoop : Nat → List Char → List String → AsmRes (List String)
  | 0, _, _ => .hang
  | fuel + 1, s, acc =>
      match s with
      | ',' :: rest =>
          let rest1 := skipSpacesChars rest
          let (tmp, rest2) := parseOperand rest1
          if tmp = "" then .fail .emptyOperand
          else if acc.length ≥ 3 then .fail .tooManyOperands
          else parseOperandsLoop fuel rest2 (acc ++ [tmp])
      | _ => .ok acc

/-- Function chip8asm_process_line. -/
def processLine (a : Asm) (lineStr : String) : AsmRes Asm :=
  let a0 := { a with line := a.line + 1 }
  let chars := skipSpacesChars lineStr.data
  match parseLabels a0 (chars.length + 1) chars with
  | .fail e => .fail e
  | .hang => .hang
  | .ok (a1, none, _) => .ok a1
  | .ok (a1, some op, rest) =>
      let rest1 := skipSpacesChars rest
      let (isAssignment, rest2) :=
        match rest1 with
        | '=' :: r => (true, skipSpacesChars r)
        | _ => (false, rest1)
      let (tmp, rest3) := parseOperand rest2
      let noOperand :=
        tmp = "" && (match rest3 with | ',' :: _ => false | _ => true)
      let operandsRes :=
        if noOperand then AsmRes.ok ([] : List String)
        else parseOperandsLoop (rest3.length + 1) rest3 [tmp]
      match operandsRes with
      | .fail e => .fail e
      | .hang => .hang
      | .ok operands =>
          if isAssignment then processAssignment a1 op operands
          else processInstruction a1 op operands

/-- Processing of several source lines in sequence. -/
def processLines (a : Asm) : List String → AsmRes Asm
  | [] => .ok a
  | l :: rest =>
      match processLine a l with
      | .ok a2 => processLines a2 rest
      | .fail e => .fail e
      | .hang => .hang

/-! ### Pass 2 (chip8asm_emit) -/

/-- Struct chip8asm_program: CHIP8_PROG_SIZE (3584) zero-initialized bytes
plus the high-water length. -/
structure Prog where
  mem : List Nat
  len : Nat
  deriving DecidableEq, Repr

/-- Function chip8asm_program_new (xcalloc zero-fills). -/
def progNew : Prog := { mem := List.replicate 3584 0, len := 0 }

/-- Function chip8asm_compile_chip8op.  In the register-then-byte group the C
logs a bad register name but is missing the early return, so it continues
with regno = -1, which VX2OPCODE later masks to 0xF00; the other register
groups do return on the error. -/
def compileChip8op (a : Asm) (instr : Pending) : AsmRes Nat :=
  let op0 := instr.operands.getD 0 ""
  let op1 := instr.operands.getD 1 ""
  let op2 := instr.operands.getD 2 ""
  match instr.chipop with
  | .INVALID => .fail .invalidOperationCompile
  | .CLS | .RET | .SCR | .SCL | .EXIT | .LOW | .HIGH =>
      .ok (toOpcodeAsm { op := instr.chipop, vx := 0, vy := 0, word := 0 })
  | .SCD =>
      match chip8asmEvalStr a.labels op0 with
      | .fail e => .fail e
      | .hang => .hang
      | .ok v => .ok (toOpcodeAsm { op := instr.chipop, vx := 0, vy := 0, word := v % 256 })
  | .JP | .CALL | .LD_I | .JP_V0 =>
      match chip8asmEvalStr a.labels op0 with
      | .fail e => .fail e
      | .hang => .hang
      | .ok v => .ok (toOpcodeAsm { op := instr.chipop, vx := 0, vy := 0, word := v })
  | .SE_BYTE | .SNE_BYTE | .LD_BYTE | .ADD_BYTE | .RND =>
      let vx : Int :=
        match registerNum op0 with
        | some r => (r : Int)
        | none => -1
      match chip8asmEvalStr a.labels op1 with
      | .fail e => .fail e
      | .hang => .hang
      | .ok v => .ok (toOpcodeAsm { op := instr.chipop, vx := vx, vy := 0, word := v % 256 })
  | .SE_REG | .LD_REG | .OR | .AND | .XOR | .ADD_REG | .SUB | .SHR_QUIRK
  | .SUBN | .SHL_QUIRK | .SNE_REG =>
      match registerNum op0 with
      | none => .fail .notARegister
      | some r1 =>
          match registerNum op1 with
          | none => .fail .notARegister
          | some r2 =>
              .ok (toOpcodeAsm { op := instr.chipop, vx := (r1 : Int), vy := (r2 : Int), word := 0 })
  | .SHR | .SHL | .SKP | .SKNP | .LD_REG_DT | .LD_KEY | .LD_DT_REG | .LD_ST
  | .ADD_I | .LD_F | .LD_HF | .LD_B | .LD_DEREF_I_REG | .LD_REG_DEREF_I
  | .LD_R_REG | .LD_REG_R =>
      match registerNum op0 with
      | none => .fail .notARegister
      | some r =>
          .ok (toOpcodeAsm { op := instr.chipop, vx := (r : Int), vy := 0, word := 0 })
  | .DRW =>
      match registerNum op0 with
      | none => .fail .notARegister
      | some r1 =>
          match registerNum op1 with
          | none => .fail .notARegister
          | some r2 =>
              match chip8asmEvalStr a.labels op2 with
              | .fail e => .fail e
              | .hang => .hang
              | .ok v =>
                  .ok (toOpcodeAsm { op := instr.chipop, vx := (r1 : Int), vy := (r2 : Int), word := v % 256 })

/-- Emission loop of chip8asm_emit over the recorded pending instructions;
the write offset is the recorded slot minus CHIP8_PROG_START (whose
underflow for a slot below 0x200 would be an out-of-bounds write in the C). -/
def emitLoop (a : Asm) : List Pending → Prog → AsmRes Prog
  | [], prog => .ok prog
  | instr :: rest, prog =>
      let mempos := instr.pc - 512
      match instr.ty with
      | .invalid => .fail .invalidInstructionEmit
      | .db =>
          match chip8asmEvalStr a.labels (instr.operands.getD 0 "") with
          | .fail e => .fail e
          | .hang => .hang
          | .ok v =>
              let prog2 : Prog :=
                { mem := prog.mem.set mempos (v % 256),
                  len := if mempos + 1 > prog.len then mempos + 1 else prog.len }
              emitLoop a rest prog2
      | .dw =>
          match chip8asmEvalStr a.labels (instr.operands.getD 0 "") with
          | .fail e => .fail e
          | .hang => .hang
          | .ok v =>
              let prog2 : Prog :=
                { mem := (prog.mem.set mempos (v / 256 % 256)).set (mempos + 1) (v % 256),
                  len := if mempos + 2 > prog.len then mempos + 2 else prog.len }
              emitLoop a rest prog2
      | .chip8op =>
          match compileChip8op a instr with
          | .fail e => .fail e
          | .hang => .hang
          | .ok opcode =>
              let prog2 : Prog :=
                { mem := (prog.mem.set mempos (opcode / 256 % 256)).set (mempos + 1) (opcode % 256),
                  len := if mempos + 2 > prog.len then mempos + 2 else prog.len }
              emitLoop a rest prog2

/-- Function chip8asm_emit: pass 2.  All recorded instructions are emitted in
order; a nonzero conditional nesting level is only a warning; on success the
pending list is cleared. -/
def chip8asmEmit (a : Asm) (prog : Prog) : AsmRes (Asm × Prog) :=
  match emitLoop a a.instructions prog with
  | .ok p2 => .ok ({ a with instructions := [] }, p2)
  | .fail e => .fail e
  | .hang => .hang

/-- Whole-session driver, as chip8asm is used by its callers: process every
source line, then emit into a fresh zeroed program. -/
def assemble (q : Bool) (ls : List String) : AsmRes (Asm × Prog) :=
  match processLines (asmNew q) ls with
  | .ok a => chip8asmEmit a progNew
  | .fail e => .fail e
  | .hang => .hang

/-- Emitted byte image (up to the high-water length) of a successful
session. -/
def assembledBytes (q : Bool) (ls : List String) : Option (List Nat × Nat) :=
  match assemble q ls with
  | .ok (_, p) => some (p.mem.take p.len, p.len)
  | _ => none

/-- Success observer on assembler results. -/
def resOk {α : Type} : AsmRes α → Bool
  | .ok _ => true
  | _ => false

/-- Value of a name after a successful session. -/
def sessionGet (ls : List String) (name : String) : Option Nat :=
  match processLines (asmNew false) ls with
  | .ok a => ltableGet a.labels name
  | _ => none

/-- C3 (code_bug evidence): redefining a name does NOT fail.  The duplicate
scan in ltable_add, `while (b->next)` with a body that never advances b,
skips the check entirely when the bucket holds a single entry, so the second
add of the same name appends a shadowed duplicate and reports
alreadyExisted = false; a session that defines the constant X twice
therefore succeeds, with lookups still returning the first value.  (Only a
third definition, once the bucket holds two entries and the head matches, is
reported as a duplicate.) -/
theorem duplicate_definition_accepted :
    ((ltableAdd ltableEmpty "X" 1).bind fun p => ltableAdd p.1 "X" 2).map Prod.snd
      = some false ∧
    resOk (processLines (asmNew false) ["X = 1", "X = 2"]) = true ∧
    sessionGet ["X = 1", "X = 2"] "X" = some 1 ∧
    resOk (processLines (asmNew false) ["dup: RET", "dup: RET"]) = true ∧
    processLines (asmNew false) ["X = 1", "X = 2", "X = 3"] = .fail .duplicateSymbol := by
  decide

/-- C6: two-pass forward-reference resolution.  A label used as an
instruction operand before its definition assembles (operand expressions are
evaluated only at emit, when all labels exist): JP lbl before lbl: RET emits
1202 00EE.  The same not-yet-defined label inside a constant assignment
fails at processLine time with the undefined-symbol diagnostic (assignment
expressions are evaluated eagerly). -/
theorem forward_reference_two_pass :
    assembledBytes false ["JP lbl", "lbl: RET"] = some ([0x12, 0x02, 0x00, 0xEE], 4) ∧
    processLine (asmNew false) "foo = lbl" = .fail .unknownIdent := by
  decide

/-- C7: alignment.  Assembling DW #1234; DB #56; DW #789A; JP #200; DB #BC
emits exactly 12 34 56 78 9A 00 12 00 BC (the machine instruction JP is
padded up to the next even slot, the data directives are not); in general,
from any state that is currently processing and has no pending label, a
machine instruction line is placed at the program counter aligned up to the
next even address and advances it by two from there, while DB advances the
counter by exactly one and DW by exactly two with no alignment. -/
theorem alignment_emission :
    assembledBytes false ["DW #1234", "DB #56", "DW #789A", "JP #200", "DB #BC"]
      = some ([0x12, 0x34, 0x56, 0x78, 0x9A, 0x00, 0x12, 0x00, 0xBC], 9) ∧
    (∀ (q : Bool) (labels : Ltable) (instrs : List Pending) (line pc : Nat),
      processLine ⟨q, labels, instrs, none, line, pc, 0, 0, 0⟩ "JP #200" =
        .ok ⟨q, labels, instrs ++ [⟨.chip8op, .JP, ["#200"], line + 1, alignPc pc⟩],
             none, line + 1, (alignPc pc + 2) % 65536, 0, 0, 0⟩) ∧
    (∀ (q : Bool) (labels : Ltable) (instrs : List Pending) (line pc : Nat),
      processLine ⟨q, labels, instrs, none, line, pc, 0, 0, 0⟩ "DB #56" =
        .ok ⟨q, labels, instrs ++ [⟨.db, .INVALID, ["#56"], line + 1, pc⟩],
             none, line + 1, (pc + 1) % 65536, 0, 0, 0⟩) ∧
    (∀ (q : Bool) (labels : Ltable) (instrs : List Pending) (line pc : Nat),
      processLine ⟨q, labels, instrs, none, line, pc, 0, 0, 0⟩ "DW #789A" =
        .ok ⟨q, labels, instrs ++ [⟨.dw, .INVALID, ["#789A"], line + 1, pc⟩],
             none, line + 1, (pc + 2) % 65536, 0, 0, 0⟩) := by
  refine ⟨by decide, fun q labels instrs line pc => rfl,
    fun q labels instrs line pc => rfl, fun q labels instrs line pc => rfl⟩

/-- C9: conditional assembly.  With TEST1 and TEST2 defined, the nested
IFDEF/ELSE/ENDIF sequence assembles only the DB 2 branch of the first group
and the DB 6 branch of the second, emitting exactly the bytes 02 06. -/
theorem conditional_assembly :
    assembledBytes false
      ["DEFINE TEST1", "DEFINE TEST2",
       "IFDEF TEST1", "IFDEF UNDEFINED", "DB 1", "ELSE", "DB 2", "ENDIF",
       "ELSE", "IFDEF TEST2", "DB 3", "ELSE", "DB 4", "ENDIF", "ENDIF",
       "IFNDEF TEST2", "DB 5", "ELSE", "DB 6", "ENDIF"]
      = some ([0x02, 0x06], 2) := by
  decide

/-! ## Disassembler, from src/disassembler.c

The jump/return-point list stores 16-bit addresses with the low bit as a
tag: a return point keeps its (even) address unmodified, a jump point has
the low bit set.  The list is kept sorted by binary-search insertion. -/

/-- Binary-search loop of jpret_list_find_ge.  One fuel unit per iteration;
the interval shrinks strictly, so list length + 1 fuel always suffices. -/
def findGeLoop (data : List Nat) (addr : Nat) : Nat → Nat → Nat → Nat
  | 0, _, e => e
  | fuel + 1, s, e =>
      if s < e then
        let mid := (s + e) / 2
        let v := data.getD mid 0
        if v < addr then findGeLoop data addr fuel (mid + 1) e
        else if addr < v then findGeLoop data addr fuel s mid
        else mid
      else e

/-- Function jpret_list_find_ge. -/
def jpretListFindGe (lst : List Nat) (addr : Nat) : Nat :=
  if lst.length = 0 then 0
  else findGeLoop lst addr (lst.length + 1) 0 lst.length

/-- Function jpret_list_find, reduced to the membership test its callers
perform (they only compare the result against -1). -/
def jpretListFind (lst : List Nat) (addr : Nat) : Bool :=
  let ge := jpretListFindGe lst addr
  decide (ge < lst.length) && (lst.getD ge 0 == addr)

/-- Function jpret_list_add: insert at the find_ge position unless the entry
is already present (growth never fails in the model). -/
def jpretListAdd (lst : List Nat) (addr : Nat) : List Nat :=
  let pos := jpretListFindGe lst addr
  if pos < lst.length ∧ lst.getD pos 0 = addr then lst
  else lst.take pos ++ addr :: lst.drop pos

/-- Function jpret_list_remove. -/
def jpretListRemove (lst : List Nat) (idx : Nat) : List Nat :=
  if lst.length ≤ idx then lst
  else lst.take idx ++ lst.drop (idx + 1)

/-- Function jpret_list_in_data: an address lies in a data section iff the
greatest element below it is a jump point and the address itself is not in
the list. -/
def jpretListInData (lst : List Nat) (addr : Nat) : Bool :=
  let pos := jpretListFindGe lst addr
  if pos = 0 then false
  else
    (lst.getD (pos - 1) 0 % 2 == 1) &&
      (decide (pos = lst.length) || decide (addr < lst.getD pos 0))

/-- Modelled from the spec: chip8_instruction_uses_addr is declared in
include/instruction.h and called by the disassembler, but its definition is
missing from the sources; per the spec the address-taking instructions are
exactly the address-operand forms JP, CALL, LD I and JP V0. -/
def usesAddr : Instr → Bool
  | .JP _ | .CALL _ | .LD_I _ | .JP_V0 _ => true
  | _ => false

/-- The addr union member, read only under usesAddr. -/
def instrAddr : Instr → Nat
  | .JP a | .CALL a | .LD_I a | .JP_V0 a => a
  | _ => 0

/-- The two hard-error exits of chip8disasm_populate_lists (allocation
failures aside, which the model ignores): a misaligned CALL or JP operand. -/
inductive DErr where
  | misalignedCall
  | misalignedJp
  deriving DecidableEq, Repr

/-- Populate-time state: the jump/return-point list, the label list and the
temporary worklist of start offsets, plus a ghost trace of every memory
index the walk reads (instrumentation for the bounds claim; it does not feed
back into the computation). -/
structure DState where
  jpret : List Nat
  labelList : List Nat
  starts : List Nat
  trace : List Nat
  deriving DecidableEq, Repr

/-- The switch block of the walk in chip8disasm_populate_lists, acting on
the decoded instruction.  The result is the updated state, the hard error if
any, and the loop signal: none means the path ends here (goto BREAK_FOR),
some sk means the walk continues with after_skip = sk.  rel is the uint16
value of inst.addr - CHIP8_PROG_START, that is (addr + 0xFE00) % 65536. -/
def walkSwitch (inst : Instr) (afterSkip : Bool) (pc rel : Nat) (st : DState) :
    DState × Option DErr × Option Bool :=
  match inst with
  | .RET | .EXIT =>
      if !afterSkip then
        ({ st with jpret := jpretListAdd st.jpret (pc ||| 1) }, none, none)
      else (st, none, some false)
  | .CALL a =>
      if a % 2 ≠ 0 then (st, some .misalignedCall, none)
      else ({ st with starts := jpretListAdd st.starts rel }, none, some false)
  | .JP a =>
      if a % 2 ≠ 0 then (st, some .misalignedJp, none)
      else
        let st3 := { st with starts := jpretListAdd st.starts rel }
        if !afterSkip then
          ({ st3 with jpret := jpretListAdd st3.jpret (pc ||| 1) }, none, none)
        else (st3, none, some false)
  | .SE_BYTE _ _ | .SNE_BYTE _ _ | .SE_REG _ _ | .SNE_REG _ _
  | .SKP _ | .SKNP _ => (st, none, some true)
  | .JP_V0 _ =>
      if !afterSkip then
        ({ st with jpret := jpretListAdd st.jpret (pc ||| 1) }, none, none)
      else (st, none, some false)
  | _ => (st, none, some false)

/-- One in-bounds iteration of the walk: record the two bytes read, fetch
and decode the opcode, add the referenced address to the label list when it
falls inside the program, then run the switch. -/
def walkBody (mem : List Nat) (q : Bool) (pc : Nat) (afterSkip : Bool) (st : DState) :
    DState × Option DErr × Option Bool :=
  let st1 := { st with trace := st.trace ++ [pc, pc + 1] }
  let opcode := mem.getD pc 0 * 256 + mem.getD (pc + 1) 0
  let inst := fromOpcode opcode q
  let rel := (instrAddr inst + 0xFE00) % 65536
  let st2 :=
    if usesAddr inst && decide (rel < mem.length) then
      { st1 with labelList := jpretListAdd st1.labelList rel }
    else st1
  walkSwitch inst afterSkip pc rel st2

/-- Inner walk of chip8disasm_populate_lists: follow one control path two
bytes at a time from pc.  Out of bounds only warns and ends the path; a
misaligned CALL/JP operand is a hard error ending the whole analysis. -/
def walkLoop (mem : List Nat) (q : Bool) : Nat → Nat → Bool → DState → DState × Option DErr
  | 0, _, _, st => (st, none)
  | fuel + 1, pc, afterSkip, st =>
      if mem.length ≤ pc then (st, none)
      else
        match walkBody mem q pc afterSkip st with
        | (st3, some e, _) => (st3, some e)
        | (st3, none, none) => (st3, none)
        | (st3, none, some sk2) => walkLoop mem q fuel ((pc + 2) % 65536) sk2 st3

/-- Worklist loop of chip8disasm_populate_lists: pop the greatest start
offset, skip it if already explored, otherwise record it as a return point
and walk from it. -/
def populateLoop (mem : List Nat) (q : Bool) : Nat → DState → DState × Option DErr
  | 0, st => (st, none)
  | fuel + 1, st =>
      if st.starts.isEmpty then (st, none)
      else
        let pc := st.starts.getD (st.starts.length - 1) 0
        let st1 := { st with starts := jpretListRemove st.starts (st.starts.length - 1) }
        if jpretListFind st1.jpret pc then populateLoop mem q fuel st1
        else
          let st2 := { st1 with jpret := jpretListAdd st1.jpret pc }
          match walkLoop mem q (mem.length + 1) pc false st2 with
          | (st3, none) => populateLoop mem q fuel st3
          | (st3, some e) => (st3, some e)

/-- Function chip8disasm_populate_lists: the worklist is seeded with offset
0 (the load address bias is not visible here). -/
def disasmPopulate (mem : List Nat) (q : Bool) (fuel : Nat) : DState × Option DErr :=
  populateLoop mem q fuel
    { jpret := [], labelList := [], starts := jpretListAdd [] 0, trace := [] }

/-- One output line of chip8disasm_dump: either a raw data word or a decoded
instruction, each with its label flag and (for instructions) the inferred
label operand. -/
inductive DumpLine where
  | dataWord (labeled : Bool) (opcode : Nat)
  | code (labeled : Bool) (i : Instr) (labelAddr : Option Nat)
  deriving DecidableEq, Repr

/-- Loop of chip8disasm_dump over the 2-byte slots, also returning the ghost
trace of memory indices read. -/
def dumpLoop (mem : List Nat) (q : Bool) (jp lb : List Nat) :
    Nat → Nat → List DumpLine × List Nat
  | 0, _ => ([], [])
  | fuel + 1, i =>
      if mem.length ≤ i then ([], [])
      else
        let opcode := mem.getD i 0 * 256 + mem.getD (i + 1) 0
        let labeled := jpretListFind lb i
        let line :=
          if jpretListInData jp i then DumpLine.dataWord labeled opcode
          else
            let inst := fromOpcode opcode q
            let rel := (instrAddr inst + 0xFE00) % 65536
            let use := usesAddr inst && jpretListFind lb rel
            DumpLine.code labeled inst (if use then some rel else none)
        let (rest, tr) := dumpLoop mem q jp lb fuel (i + 2)
        (line :: rest, i :: (i + 1) :: tr)

/-- Function chip8disasm_dump, producing one line per 2-byte slot of the
buffer (mem.length / 2 + 1 fuel covers every slot). -/
def chip8disasmDump (mem : List Nat) (q : Bool) (jp lb : List Nat) :
    List DumpLine × List Nat :=
  dumpLoop mem q jp lb (mem.length / 2 + 1) 0


/-- Strict ascending order of a tagged address list. -/
def StrictSorted (l : List Nat) : Prop :=
  ∀ j, j < l.length → ∀ i, i < j → l.getD i 0 < l.getD j 0

instance strictSortedDecidable (l : List Nat) : Decidable (StrictSorted l) := by
  unfold StrictSorted
  infer_instance

theorem insertAt_eq_insertIdx (l : List Nat) (pos a : Nat) (h : pos ≤ l.length) :
    l.take pos ++ a :: l.drop pos = l.insertIdx pos a := by
  induction l generalizing pos with
  | nil =>
      have : pos = 0 := by simpa using h
      subst this
      simp
  | cons c t ih =>
      cases pos with
      | zero => simp
      | succ p =>
          have hp : p ≤ t.length := by simpa using h
          simp [List.take_succ_cons, List.drop_succ_cons, ih p hp]

theorem findGeLoop_le (data : List Nat) (addr : Nat) :
    ∀ fuel s e, e ≤ data.length → findGeLoop data addr fuel s e ≤ data.length := by
  intro fuel
  induction fuel with
  | zero => intro s e he; simpa [findGeLoop] using he
  | succ n ih =>
      intro s e he
      simp only [findGeLoop]
      by_cases hlt : s < e
      · rw [if_pos hlt]
        by_cases hv : data.getD ((s + e) / 2) 0 < addr
        · rw [if_pos hv]; exact ih _ e he
        · rw [if_neg hv]
          by_cases hv2 : addr < data.getD ((s + e) / 2) 0
          · rw [if_pos hv2]; exact ih s _ (by omega)
          · rw [if_neg hv2]; omega
      · rw [if_neg hlt]; exact he

theorem jpretListFindGe_le (lst : List Nat) (addr : Nat) :
    jpretListFindGe lst addr ≤ lst.length := by
  unfold jpretListFindGe
  by_cases h : lst.length = 0
  · rw [if_pos h]; omega
  · rw [if_neg h]; exact findGeLoop_le lst addr (lst.length + 1) 0 lst.length le_rfl

theorem mem_jpretListAdd (l : List Nat) (a x : Nat) (hx : x ∈ jpretListAdd l a) :
    x = a ∨ x ∈ l := by
  unfold jpretListAdd at hx
  by_cases hdup : jpretListFindGe l a < l.length ∧ l.getD (jpretListFindGe l a) 0 = a
  · rw [if_pos hdup] at hx; exact Or.inr hx
  · rw [if_neg hdup, insertAt_eq_insertIdx l _ a (jpretListFindGe_le l a)] at hx
    exact (List.mem_insertIdx (jpretListFindGe_le l a)).mp hx

theorem mem_jpretListRemove (l : List Nat) (i x : Nat) (hx : x ∈ jpretListRemove l i) :
    x ∈ l := by
  unfold jpretListRemove at hx
  by_cases h : l.length ≤ i
  · rwa [if_pos h] at hx
  · rw [if_neg h] at hx
    rcases List.mem_append.mp hx with h2 | h2
    · exact List.take_subset _ _ h2
    · exact List.drop_subset _ _ h2

theorem getD_mem_of_lt (l : List Nat) (i : Nat) (h : i < l.length) : l.getD i 0 ∈ l := by
  rw [List.getD_eq_getElem l 0 h]
  exact List.getElem_mem _

theorem walkSwitch_starts_mem (inst : Instr) (sk : Bool) (pc rel : Nat) (st : DState) :
    ∀ x ∈ (walkSwitch inst sk pc rel st).1.starts,
      x ∈ st.starts ∨ (x = rel ∧ instrAddr inst % 2 = 0) := by
  cases inst <;> simp only [walkSwitch, instrAddr] <;> (try split_ifs) <;> intro x hx <;>
    first
      | exact Or.inl hx
      | (rcases mem_jpretListAdd _ _ _ hx with h | h
         · refine Or.inr ⟨h, ?_⟩
           omega
         · exact Or.inl h)

theorem walkSwitch_trace (inst : Instr) (sk : Bool) (pc rel : Nat) (st : DState) :
    (walkSwitch inst sk pc rel st).1.trace = st.trace := by
  cases inst <;> simp only [walkSwitch] <;> (try split_ifs) <;> rfl

theorem walkBody_inv (mem : List Nat) (q : Bool) (hev : mem.length % 2 = 0)
    (pc : Nat) (sk : Bool) (st : DState) (hpc : pc % 2 = 0) (hoob : pc < mem.length)
    (hst : ∀ x ∈ st.starts, x % 2 = 0) (htr : ∀ i ∈ st.trace, i < mem.length) :
    (∀ x ∈ (walkBody mem q pc sk st).1.starts, x % 2 = 0) ∧
    (∀ i ∈ (walkBody mem q pc sk st).1.trace, i < mem.length) := by
  simp only [walkBody]
  constructor
  · intro x hx
    rcases walkSwitch_starts_mem _ _ _ _ _ x hx with h | ⟨h1, h2⟩
    · revert h
      split_ifs <;> intro h <;> exact hst x h
    · omega
  · intro i hi
    rw [walkSwitch_trace] at hi
    revert hi
    split_ifs <;> intro hi <;>
      (have hi2 : i ∈ st.trace ++ [pc, pc + 1] := hi
       rcases List.mem_append.mp hi2 with h | h
       · exact htr i h
       · rcases List.mem_cons.mp h with h2 | h2
         · omega
         · rcases List.mem_cons.mp h2 with h3 | h3
           · omega
           · cases h3)

theorem walkLoop_inv (mem : List Nat) (q : Bool) (hev : mem.length % 2 = 0) :
    ∀ fuel pc sk st, pc % 2 = 0 →
      (∀ x ∈ st.starts, x % 2 = 0) → (∀ i ∈ st.trace, i < mem.length) →
      (∀ x ∈ (walkLoop mem q fuel pc sk st).1.starts, x % 2 = 0) ∧
      (∀ i ∈ (walkLoop mem q fuel pc sk st).1.trace, i < mem.length) := by
  intro fuel
  induction fuel with
  | zero => intro pc sk st hpc hst htr; exact ⟨hst, htr⟩
  | succ n ih =>
      intro pc sk st hpc hst htr
      simp only [walkLoop]
      by_cases hoob : mem.length ≤ pc
      · rw [if_pos hoob]; exact ⟨hst, htr⟩
      · rw [if_neg hoob]
        have hb := walkBody_inv mem q hev pc sk st hpc (by omega) hst htr
        split
        next st3 e sx heq =>
          rw [heq] at hb
          exact hb
        next st3 heq =>
          rw [heq] at hb
          exact hb
        next st3 sk2 heq =>
          rw [heq] at hb
          exact ih ((pc + 2) % 65536) sk2 st3 (by omega) hb.1 hb.2


theorem populateLoop_inv (mem : List Nat) (q : Bool) (hev : mem.length % 2 = 0) :
    ∀ fuel st, (∀ x ∈ st.starts, x % 2 = 0) → (∀ i ∈ st.trace, i < mem.length) →
      ∀ i ∈ (populateLoop mem q fuel st).1.trace, i < mem.length := by
  intro fuel
  induction fuel with
  | zero => intro st hst htr; exact htr
  | succ n ih =>
      intro st hst htr
      simp only [populateLoop]
      by_cases hemp : st.starts.isEmpty
      · rw [if_pos hemp]; exact htr
      · rw [if_neg hemp]
        have hne : st.starts.length ≠ 0 := by
          intro hc
          exact hemp (List.isEmpty_iff_length_eq_zero.mpr hc)
        have hpc : st.starts.getD (st.starts.length - 1) 0 % 2 = 0 :=
          hst _ (getD_mem_of_lt _ _ (by omega))
        have hst1 : ∀ x ∈ (jpretListRemove st.starts (st.starts.length - 1)), x % 2 = 0 :=
          fun x hx => hst x (mem_jpretListRemove _ _ _ hx)
        by_cases hfind : jpretListFind st.jpret (st.starts.getD (st.starts.length - 1) 0)
        · rw [if_pos hfind]
          exact ih _ hst1 htr
        · rw [if_neg hfind]
          have hw := walkLoop_inv mem q hev (mem.length + 1)
            (st.starts.getD (st.starts.length - 1) 0) false
            { st with starts := jpretListRemove st.starts (st.starts.length - 1),
                      jpret := jpretListAdd st.jpret (st.starts.getD (st.starts.length - 1) 0) }
            hpc hst1 htr
          split
          next st3 heq =>
            rw [heq] at hw
            exact ih st3 hw.1 hw.2
          next st3 e heq =>
            rw [heq] at hw
            exact hw.2

theorem dumpLoop_length (mem : List Nat) (q : Bool) (jp lb : List Nat) :
    ∀ fuel i, mem.length ≤ i + 2 * fuel →
      (dumpLoop mem q jp lb fuel i).1.length = (mem.length - i + 1) / 2 := by
  intro fuel
  induction fuel with
  | zero =>
      intro i h
      simp only [dumpLoop, List.length_nil]
      omega
  | succ n ih =>
      intro i h
      simp only [dumpLoop]
      by_cases hle : mem.length ≤ i
      · rw [if_pos hle]
        simp only [List.length_nil]
        omega
      · rw [if_neg hle]
        have hrec := ih (i + 2) (by omega)
        dsimp only
        simp only [List.length_cons]
        omega

theorem dumpLoop_trace (mem : List Nat) (q : Bool) (jp lb : List Nat)
    (hev : mem.length % 2 = 0) :
    ∀ fuel i, i % 2 = 0 → ∀ j ∈ (dumpLoop mem q jp lb fuel i).2, j < mem.length := by
  intro fuel
  induction fuel with
  | zero =>
      intro i hi j hj
      simp only [dumpLoop, List.not_mem_nil] at hj
  | succ n ih =>
      intro i hi j hj
      simp only [dumpLoop] at hj
      by_cases hle : mem.length ≤ i
      · rw [if_pos hle] at hj
        simp only [List.not_mem_nil] at hj
      · rw [if_neg hle] at hj
        dsimp only at hj
        rcases List.mem_cons.mp hj with h | h
        · omega
        · rcases List.mem_cons.mp h with h2 | h2
          · omega
          · exact ih (i + 2) (by omega) j h2


theorem findGeLoop_bounds (data : List Nat) (addr : Nat) (hs : StrictSorted data) :
    ∀ fuel s e, s ≤ e → e ≤ data.length → e - s ≤ fuel →
      (∀ k, k < s → data.getD k 0 < addr) →
      (∀ k, e ≤ k → k < data.length → addr ≤ data.getD k 0) →
      (∀ k, k < findGeLoop data addr fuel s e → data.getD k 0 < addr) ∧
      (findGeLoop data addr fuel s e < data.length →
        addr ≤ data.getD (findGeLoop data addr fuel s e) 0) ∧
      findGeLoop data addr fuel s e ≤ data.length := by
  intro fuel
  induction fuel with
  | zero =>
      intro s e hse hel hf h1 h2
      simp only [findGeLoop]
      exact ⟨fun k hk => h1 k (by omega), fun h => h2 e le_rfl h, hel⟩
  | succ n ih =>
      intro s e hse hel hf h1 h2
      simp only [findGeLoop]
      by_cases hlt : s < e
      · rw [if_pos hlt]
        have hm1 : s ≤ (s + e) / 2 := by omega
        have hm2 : (s + e) / 2 < e := by omega
        have hmlen : (s + e) / 2 < data.length := by omega
        by_cases hv : data.getD ((s + e) / 2) 0 < addr
        · rw [if_pos hv]
          refine ih ((s + e) / 2 + 1) e (by omega) hel (by omega) ?_ h2
          intro k hk
          rcases Nat.lt_or_ge k s with hks | hks
          · exact h1 k hks
          · rcases Nat.eq_or_lt_of_le (Nat.le_of_lt_succ hk) with heq | hlt2
            · rw [heq]; exact hv
            · exact lt_trans (hs ((s + e) / 2) hmlen k hlt2) hv
        · rw [if_neg hv]
          by_cases hv2 : addr < data.getD ((s + e) / 2) 0
          · rw [if_pos hv2]
            refine ih s ((s + e) / 2) (by omega) (by omega) (by omega) h1 ?_
            intro k hk1 hk2
            rcases Nat.eq_or_lt_of_le hk1 with heq | hlt2
            · rw [← heq]; exact le_of_lt hv2
            · exact le_of_lt (lt_trans hv2 (hs k hk2 ((s + e) / 2) hlt2))
          · rw [if_neg hv2]
            have heq : data.getD ((s + e) / 2) 0 = addr := by omega
            refine ⟨?_, fun _ => by omega, by omega⟩
            intro k hk
            rcases Nat.lt_or_ge k s with hks | hks
            · exact h1 k hks
            · rw [← heq]; exact hs ((s + e) / 2) hmlen k hk
      · rw [if_neg hlt]
        exact ⟨fun k hk => h1 k (by omega), fun h => h2 e le_rfl h, hel⟩

theorem jpretListFindGe_bounds (lst : List Nat) (addr : Nat) (hs : StrictSorted lst) :
    (∀ k, k < jpretListFindGe lst addr → lst.getD k 0 < addr) ∧
    (jpretListFindGe lst addr < lst.length →
      addr ≤ lst.getD (jpretListFindGe lst addr) 0) ∧
    jpretListFindGe lst addr ≤ lst.length := by
  unfold jpretListFindGe
  by_cases h : lst.length = 0
  · rw [if_pos h]
    exact ⟨fun k hk => absurd hk (by omega), fun hh => absurd hh (by omega), by omega⟩
  · rw [if_neg h]
    exact findGeLoop_bounds lst addr hs (lst.length + 1) 0 lst.length (by omega) le_rfl
      (by omega) (fun k hk => absurd hk (by omega)) (fun k hk1 hk2 => absurd hk1 (by omega))

theorem getD_insertIdx_desc (l : List Nat) (pos a : Nat) (hle : pos ≤ l.length) :
    ∀ k, k < l.length + 1 →
      (l.insertIdx pos a).getD k 0 =
        if k < pos then l.getD k 0 else if k = pos then a else l.getD (k - 1) 0 := by
  intro k hk
  have hlen : (l.insertIdx pos a).length = l.length + 1 :=
    List.length_insertIdx pos l hle
  by_cases h1 : k < pos
  · rw [if_pos h1]
    have hkl : k < l.length := by omega
    rw [List.getD_eq_getElem _ 0 (by omega)]
    rw [List.getElem_insertIdx_of_lt l a pos k h1 hkl]
    rw [List.getD_eq_getElem l 0 hkl]
  · rw [if_neg h1]
    by_cases h2 : k = pos
    · rw [if_pos h2]
      have e0 : (l.insertIdx pos a).getD k 0 = (l.insertIdx pos a).getD pos 0 := by
        rw [h2]
      rw [e0]
      rw [List.getD_eq_getElem _ 0 (by omega)]
      exact List.getElem_insertIdx_self l a pos hle (by omega)
    · rw [if_neg h2]
      have hk1 : pos + (k - pos - 1) + 1 = k := by omega
      have e1 : (l.insertIdx pos a).getD k 0
          = (l.insertIdx pos a).getD (pos + (k - pos - 1) + 1) 0 := by rw [hk1]
      rw [e1]
      rw [List.getD_eq_getElem _ 0 (by omega)]
      rw [List.getElem_insertIdx_add_succ l a pos (k - pos - 1) (by omega)]
      rw [← List.getD_eq_getElem l 0 (show pos + (k - pos - 1) < l.length by omega)]
      have e2 : pos + (k - pos - 1) = k - 1 := by omega
      rw [e2]

theorem jpretListAdd_sorted (l : List Nat) (a : Nat) (hs : StrictSorted l) :
    StrictSorted (jpretListAdd l a) ∧ a ∈ jpretListAdd l a := by
  unfold jpretListAdd
  obtain h3 := jpretListFindGe_bounds l a hs
  obtain ⟨hlo, hhi, hle⟩ := h3
  set pos := jpretListFindGe l a with hpos
  by_cases hdup : pos < l.length ∧ l.getD pos 0 = a
  · rw [if_pos hdup]
    refine ⟨hs, ?_⟩
    rw [← hdup.2, List.getD_eq_getElem l 0 hdup.1]
    exact List.getElem_mem _
  · rw [if_neg hdup]
    rw [insertAt_eq_insertIdx l pos a hle]
    have hlen : (l.insertIdx pos a).length = l.length + 1 :=
      List.length_insertIdx pos l hle
    have hgt : ∀ k, pos ≤ k → k < l.length → a < l.getD k 0 := by
      intro k hk1 hk2
      rcases Nat.eq_or_lt_of_le hk1 with heq | hlt2
      · have := hhi (by omega)
        have hne : l.getD pos 0 ≠ a := fun hc => hdup ⟨by omega, hc⟩
        rw [← heq]
        omega
      · have h4 := hhi (by omega)
        have hne : l.getD pos 0 ≠ a := fun hc => hdup ⟨by omega, hc⟩
        exact lt_of_lt_of_le (by omega) (le_of_lt (hs k hk2 pos hlt2))
    constructor
    · intro j hj i hij
      rw [hlen] at hj
      rw [getD_insertIdx_desc l pos a hle j hj]
      rw [getD_insertIdx_desc l pos a hle i (by omega)]
      by_cases hjp : j < pos
      · rw [if_pos hjp, if_pos (show i < pos by omega)]
        exact hs j (by omega) i hij
      · rw [if_neg hjp]
        by_cases hjp2 : j = pos
        · rw [if_pos hjp2, if_pos (show i < pos by omega)]
          exact hlo i (by omega)
        · rw [if_neg hjp2]
          by_cases hip : i < pos
          · rw [if_pos hip]
            exact hs (j - 1) (by omega) i (by omega)
          · rw [if_neg hip]
            by_cases hip2 : i = pos
            · rw [if_pos hip2]
              exact hgt (j - 1) (by omega) (by omega)
            · rw [if_neg hip2]
              exact hs (j - 1) (by omega) (i - 1) (by omega)
    · exact (List.mem_insertIdx hle).mpr (Or.inl rfl)

theorem sorted_adjacent (l : List Nat) (hs : StrictSorted l) (b : Nat)
    (hb : b ∈ l) (hb1 : b + 1 ∈ l) :
    ∃ i, i + 1 < l.length ∧ l.getD i 0 = b ∧ l.getD (i + 1) 0 = b + 1 := by
  obtain ⟨i, hi, hgi⟩ := List.mem_iff_getElem.mp hb
  obtain ⟨j, hj, hgj⟩ := List.mem_iff_getElem.mp hb1
  have gdi : l.getD i 0 = b := by rw [List.getD_eq_getElem l 0 hi]; exact hgi
  have gdj : l.getD j 0 = b + 1 := by rw [List.getD_eq_getElem l 0 hj]; exact hgj
  have hij : i < j := by
    by_contra hcon
    rcases Nat.eq_or_lt_of_le (Nat.le_of_not_lt hcon) with heq | hlt2
    · rw [heq] at gdj
      omega
    · have := hs i hi j hlt2
      omega
  have hji : j = i + 1 := by
    by_contra hcon
    have h2 : i + 1 < j := by omega
    have l1 := hs j hj (i + 1) h2
    have l2 := hs (i + 1) (by omega) i (by omega)
    omega
  exact ⟨i, by omega, gdi, by rw [← hji]; exact gdj⟩

/-- C5 (amended): after every add the jump/return-point list is strictly
ascending (hence duplicate-free), and whenever a return point (even address
b, low tag bit 0) and the jump point of the same numeric address (b + 1,
low tag bit 1) are both present, the JUMP point sits immediately after the
return point - the opposite order from the claim, forced by the tag-bit
encoding. -/
theorem jpret_invariant_amended (l : List Nat) (a : Nat) (hs : StrictSorted l) :
    (StrictSorted (jpretListAdd l a) ∧ a ∈ jpretListAdd l a) ∧
    (∀ b, b % 2 = 0 → b ∈ jpretListAdd l a → b + 1 ∈ jpretListAdd l a →
      ∃ i, i + 1 < (jpretListAdd l a).length ∧
        (jpretListAdd l a).getD i 0 = b ∧
        (jpretListAdd l a).getD (i + 1) 0 = b + 1) := by
  have h1 := jpretListAdd_sorted l a hs
  exact ⟨h1, fun b _ hb hb1 => sorted_adjacent _ h1.1 b hb hb1⟩

/-- C5 (witness): adding the jump point 0 to the singleton list [1] keeps
strict order, and the return point 0 sits immediately before the jump
point 1. -/
theorem jpret_invariant_amended_witness :
    StrictSorted (jpretListAdd [1] 0) ∧
    (∃ i, i + 1 < (jpretListAdd [1] 0).length ∧
      (jpretListAdd [1] 0).getD i 0 = 0 ∧ (jpretListAdd [1] 0).getD (i + 1) 0 = 1) :=
  ⟨(jpret_invariant_amended [1] 0 (by decide)).1.1,
   (jpret_invariant_amended [1] 0 (by decide)).2 0 (by decide) (by decide) (by decide)⟩

/-- C5 (counterexample): the claim has the tie order backwards.  Running
the reachability analysis on the self-loop program JP 0x200 performs exactly
the adds the claim describes (return point 0, then jump point 0|1 = 1) and
produces the list [0, 1]: the return point sorts immediately BEFORE the jump
point of the same numeric address, never after it. -/
theorem jpret_order_counterexample :
    (disasmPopulate [0x12, 0x00] false 16).1.jpret = [0, 1] ∧
    (disasmPopulate [0x12, 0x00] false 16).2 = none ∧
    (∀ i, i < 1 → ¬((disasmPopulate [0x12, 0x00] false 16).1.jpret.getD i 0 = 1 ∧
        (disasmPopulate [0x12, 0x00] false 16).1.jpret.getD (i + 1) 0 = 0)) := by
  decide

/-- C4 (counterexample): a misaligned JP operand does not merely warn and
abandon one path - it aborts the whole analysis with a hard error (and
chip8disasm_from_file then fails, so no dump is produced).  The two-byte
program 12 01 is JP 0x201, whose odd operand triggers the error exit of
chip8disasm_populate_lists. -/
theorem disasm_misaligned_aborts :
    (disasmPopulate [0x12, 0x01] false 16).2 = some .misalignedJp := by
  decide

/-- C4 (amended): only the out-of-bounds case is tolerated per-path: a walk
that reaches the end of the buffer stops that path with a warning and no
error, leaving the state for the remaining worklist entries (concretely, a
program whose first path walks out of bounds still completes with no error
and still explores the queued subroutine offset 4); the dump emits exactly
one line per 2-byte slot of the buffer.  A misaligned JP/CALL operand, by
contrast, aborts the entire analysis (see the counterexample). -/
theorem disasm_bad_path_amended :
    (∀ (mem : List Nat) (q : Bool) (st : DState) (pc : Nat) (sk : Bool) (fuel : Nat),
       mem.length ≤ pc → walkLoop mem q (fuel + 1) pc sk st = (st, none)) ∧
    (∀ (mem : List Nat) (q : Bool) (jp lb : List Nat),
       (chip8disasmDump mem q jp lb).1.length = (mem.length + 1) / 2) ∧
    (disasmPopulate [0x22, 0x04, 0x60, 0x00] false 16).2 = none ∧
    4 ∈ (disasmPopulate [0x22, 0x04, 0x60, 0x00] false 16).1.jpret := by
  refine ⟨?_, ?_, by decide, by decide⟩
  · intro mem q st pc sk fuel h
    simp only [walkLoop]
    rw [if_pos h]
  · intro mem q jp lb
    unfold chip8disasmDump
    have := dumpLoop_length mem q jp lb (mem.length / 2 + 1) 0 (by omega)
    rw [this]
    omega

/-- C4 (witness): the out-of-bounds walk fact applied to the empty buffer
at pc 0, and the dump-coverage fact applied to a two-byte buffer. -/
theorem disasm_bad_path_amended_witness :
    walkLoop [] false 1 0 false ⟨[], [], [], []⟩ = (⟨[], [], [], []⟩, none) ∧
    (chip8disasmDump [0, 224] false [] []).1.length = 1 :=
  ⟨disasm_bad_path_amended.1 [] false ⟨[], [], [], []⟩ 0 false 0 (by decide),
   disasm_bad_path_amended.2.1 [0, 224] false [] []⟩

/-- C10: for every buffer of even length, every byte index read by the
reachability walk (traced as pc and pc + 1 for each fetched opcode) and by
dump (traced as i and i + 1 per slot) is within the buffer: start offsets
are always even - jump and call targets are pushed only after the
even-alignment check - so pc + 1 never reaches past an even buffer end. -/
theorem disasm_reads_in_bounds :
    ∀ (mem : List Nat) (q : Bool) (fuel : Nat) (jp lb : List Nat), mem.length % 2 = 0 →
      (∀ i ∈ (disasmPopulate mem q fuel).1.trace, i < mem.length) ∧
      (∀ i ∈ (chip8disasmDump mem q jp lb).2, i < mem.length) := by
  intro mem q fuel jp lb hev
  constructor
  · apply populateLoop_inv mem q hev fuel
    · intro x hx
      dsimp only at hx
      rcases mem_jpretListAdd _ _ _ hx with h | h
      · omega
      · simp at h
    · intro i hi
      simp at hi
  · exact dumpLoop_trace mem q jp lb hev (mem.length / 2 + 1) 0 (by omega)

/-- C10 (witness): the bounds fact on the two-byte program 00 E0. -/
theorem disasm_reads_in_bounds_witness :
    (∀ i ∈ (disasmPopulate [0, 224] false 8).1.trace, i < 2) ∧
    (∀ i ∈ (chip8disasmDump [0, 224] false [] []).2, i < 2) :=
  disasm_reads_in_bounds [0, 224] false 8 [] [] (by decide)

end Chip8
